import Mathlib

/-!
Verification development for the Dropmate ride-hailing server core:
the in-memory entity store (`MemStorage` in `server/storage.ts`), the REST
ride-lifecycle handlers and the WebSocket subscription registry / location
relay (`server/routes.ts`).

JavaScript `Map`s are modelled as association lists that keep insertion
order (`Map.set` on an existing key replaces in place, which is what
`setKey` does); JS `number` is modelled as `ℚ`; nullable fields are
`Option`; ISO-8601 timestamps are opaque `Nat` instants supplied by the
caller (`new Date().toISOString()` becomes a `now` parameter); the random
values used by the accept handler are likewise explicit parameters.
-/

namespace Dropmate

/-- `RideStatus` enum from `shared/schema.ts`. -/
inductive RideStatus
  | waiting
  | accepted
  | in_progress
  | completed
  | cancelled
deriving DecidableEq, Repr

/-- `UserRole` from `shared/schema.ts`. -/
inductive Role
  | customer
  | driver
deriving DecidableEq, Repr

/-- `locationSchema`: lat/lng plus optional address label. -/
structure Location where
  lat : ℚ
  lng : ℚ
  address : Option String := none
deriving DecidableEq, Repr

/-- `userSchema` from `shared/schema.ts`. -/
structure User where
  id : String
  walletAddress : String
  role : Role
  reputation : ℚ
  completedRides : ℚ
  avgRating : ℚ
  balance : ℚ
  name : Option String := none
deriving DecidableEq, Repr

/-- `rideSchema` from `shared/schema.ts`; timestamps are opaque `Nat`s. -/
structure Ride where
  id : String
  customerId : String
  driverId : Option String
  pickup : Location
  dropoff : Location
  estimatedFare : ℚ
  stakedAmount : ℚ
  actualFare : Option ℚ
  status : RideStatus
  currentLocation : Option Location
  createdAt : Nat
  startedAt : Option Nat
  completedAt : Option Nat
  customerRating : Option ℚ
  driverRating : Option ℚ
  customerFeedback : Option String
  driverFeedback : Option String
deriving DecidableEq, Repr

/-- `locationUpdateSchema`: a GPS sample relayed over the live channel. -/
structure LocationUpdate where
  lat : ℚ
  lng : ℚ
  timestamp : Nat
  speed : Option ℚ := none
deriving DecidableEq, Repr

/-! ### Insertion-ordered association maps (the model of JS `Map`) -/

/-- `Map.get`: first entry with the given key. -/
def getKey {κ α : Type} [DecidableEq κ] : List (κ × α) → κ → Option α
  | [], _ => none
  | (k, v) :: rest, key => if k = key then some v else getKey rest key

/-- `Map.set`: replace in place if the key exists, else append
(JS `Map` keeps the original insertion position on overwrite). -/
def setKey {κ α : Type} [DecidableEq κ] : List (κ × α) → κ → α → List (κ × α)
  | [], key, v => [(key, v)]
  | (k, w) :: rest, key, v =>
      if k = key then (key, v) :: rest else (k, w) :: setKey rest key v

/-- `Map.delete`: drop every entry with the given key. -/
def delKey {κ α : Type} [DecidableEq κ] : List (κ × α) → κ → List (κ × α)
  | [], _ => []
  | (k, v) :: rest, key =>
      if k = key then delKey rest key else (k, v) :: delKey rest key

/-! ### Entity store (`MemStorage` in `server/storage.ts`) -/

/-- The two in-memory maps of `MemStorage`. -/
structure Storage where
  users : List (String × User)
  rides : List (String × Ride)
deriving DecidableEq, Repr

def Storage.getUser (s : Storage) (id : String) : Option User :=
  getKey s.users id

def Storage.getRide (s : Storage) (id : String) : Option Ride :=
  getKey s.rides id

/-- The `Partial<Ride>` objects the route handlers pass to
`storage.updateRide`: an outer `some` marks a field as present in the
update object (a present field may itself set the stored value to null). -/
structure RideUpdates where
  driverId : Option (Option String) := none
  status : Option RideStatus := none
  currentLocation : Option (Option Location) := none
  startedAt : Option Nat := none
  completedAt : Option Nat := none
  actualFare : Option ℚ := none
  customerRating : Option ℚ := none
  driverRating : Option ℚ := none
  customerFeedback : Option (Option String) := none
  driverFeedback : Option (Option String) := none
deriving DecidableEq, Repr

/-- `{ ...ride, ...updates }`: present fields overwrite, absent ones keep
the stored value. -/
def applyRideUpdates (r : Ride) (u : RideUpdates) : Ride :=
  { r with
    driverId := u.driverId.getD r.driverId
    status := u.status.getD r.status
    currentLocation := u.currentLocation.getD r.currentLocation
    startedAt := (u.startedAt.map some).getD r.startedAt
    completedAt := (u.completedAt.map some).getD r.completedAt
    actualFare := (u.actualFare.map some).getD r.actualFare
    customerRating := (u.customerRating.map some).getD r.customerRating
    driverRating := (u.driverRating.map some).getD r.driverRating
    customerFeedback := u.customerFeedback.getD r.customerFeedback
    driverFeedback := u.driverFeedback.getD r.driverFeedback }

/-- `MemStorage.updateRide`: merge into the stored ride, `undefined` when
the id is unknown. -/
def Storage.updateRide (s : Storage) (id : String) (u : RideUpdates) :
    Option Ride × Storage :=
  match getKey s.rides id with
  | none => (none, s)
  | some r =>
      let r' := applyRideUpdates r u
      (some r', { s with rides := setKey s.rides id r' })

/-- The `Partial<User>` update the complete handler passes to
`storage.updateUser` (only these three fields are ever updated). -/
structure UserUpdates where
  avgRating : Option ℚ := none
  completedRides : Option ℚ := none
  reputation : Option ℚ := none
deriving DecidableEq, Repr

def applyUserUpdates (u : User) (upd : UserUpdates) : User :=
  { u with
    avgRating := upd.avgRating.getD u.avgRating
    completedRides := upd.completedRides.getD u.completedRides
    reputation := upd.reputation.getD u.reputation }

/-- `MemStorage.updateUser`. -/
def Storage.updateUser (s : Storage) (id : String) (upd : UserUpdates) :
    Option User × Storage :=
  match getKey s.users id with
  | none => (none, s)
  | some u =>
      let u' := applyUserUpdates u upd
      (some u', { s with users := setKey s.users id u' })

/-- `MemStorage.createRide`: fresh ride in status `waiting`, no driver.
The `randomUUID()` id and the `new Date()` instant are parameters. -/
def Storage.createRide (s : Storage) (newId customerId : String)
    (pickup dropoff : Location) (estimatedFare stakedAmount : ℚ) (now : Nat) :
    Ride × Storage :=
  let ride : Ride :=
    { id := newId
      customerId := customerId
      driverId := none
      pickup := pickup
      dropoff := dropoff
      estimatedFare := estimatedFare
      stakedAmount := stakedAmount
      actualFare := none
      status := RideStatus.waiting
      currentLocation := none
      createdAt := now
      startedAt := none
      completedAt := none
      customerRating := none
      driverRating := none
      customerFeedback := none
      driverFeedback := none }
  (ride, { s with rides := setKey s.rides newId ride })

/-- The `activeStatuses` list in `MemStorage.getActiveRide`. -/
def isActiveStatus : RideStatus → Bool
  | RideStatus.waiting => true
  | RideStatus.accepted => true
  | RideStatus.in_progress => true
  | _ => false

/-- `MemStorage.getActiveRide`: unknown user yields `undefined`; otherwise
the first ride (in `Map` insertion order) with an active status where the
user appears in the role-matching column. -/
def Storage.getActiveRide (s : Storage) (userId : String) : Option Ride :=
  match getKey s.users userId with
  | none => none
  | some user =>
      (s.rides.find? (fun e =>
        isActiveStatus e.2.status &&
          match user.role with
          | Role.customer => e.2.customerId == userId
          | Role.driver => e.2.driverId == some userId)).map (·.2)

/-! ### REST ride-lifecycle handlers (`server/routes.ts`)

Error constructors carry the handler's message string; `conflict` is the
400 "ride not in required state" taxonomy entry, `forbidden` 403,
`notFound` 404.  Body fields that the handlers read without zod
validation (`userId` in cancel, `driverId` in start) are `Option String`:
`none` models a JSON `null`, and the comparisons use the same strict
(`!==`) semantics as the source.  The `broadcastRideStatus` fan-out and
the `rideLocations.delete` cleanup these handlers also perform touch only
the live-channel state, which is modelled separately below; they do not
affect the entity store. -/

inductive ApiErr
  | notFound (msg : String)
  | conflict (msg : String)
  | forbidden (msg : String)
deriving DecidableEq, Repr

/-- The success tail every lifecycle handler ends with:
`res.json(updatedRide)` on the result of `storage.updateRide` (the ride
was already fetched, so the `undefined` branch cannot actually occur and
would surface as a 404-style error). -/
def respond (p : Option Ride × Storage) : Except ApiErr Ride × Storage :=
  match p with
  | (some updated, s') => (Except.ok updated, s')
  | (none, s') => (Except.error (ApiErr.notFound "Ride not found"), s')

/-- JS `Math.round`: `⌊x + 1/2⌋` (ties go toward positive infinity). -/
def jsRound (x : ℚ) : ℤ := ⌊x + 1/2⌋

/-- `Math.round(x * 10) / 10`: round to one decimal place. -/
def roundTo1 (x : ℚ) : ℚ := (jsRound (x * 10) : ℚ) / 10

/-- `POST /api/rides/:rideId/accept`.  `rand` stands for the two
`(Math.random() - 0.5) * 0.02` offsets used to seed the driver location. -/
def acceptRide (s : Storage) (rideId driverId : String) (rand : ℚ × ℚ) :
    Except ApiErr Ride × Storage :=
  match s.getRide rideId with
  | none => (Except.error (ApiErr.notFound "Ride not found"), s)
  | some ride =>
      if ride.status ≠ RideStatus.waiting then
        (Except.error (ApiErr.conflict "Ride is no longer available"), s)
      else
        match s.getActiveRide driverId with
        | some _ =>
            (Except.error (ApiErr.conflict "You already have an active ride"), s)
        | none =>
            respond (s.updateRide rideId
              { driverId := some (some driverId)
                status := some RideStatus.accepted
                currentLocation := some (some
                  { lat := ride.pickup.lat + rand.1
                    lng := ride.pickup.lng + rand.2 }) })

/-- `POST /api/rides/:rideId/start`.  `driverId` comes from the raw body
(no schema), hence `Option String`. -/
def startRide (s : Storage) (rideId : String) (driverId : Option String) (now : Nat) :
    Except ApiErr Ride × Storage :=
  match s.getRide rideId with
  | none => (Except.error (ApiErr.notFound "Ride not found"), s)
  | some ride =>
      if ride.status ≠ RideStatus.accepted then
        (Except.error (ApiErr.conflict "Ride cannot be started"), s)
      else if ride.driverId ≠ driverId then
        (Except.error (ApiErr.forbidden "Not authorized"), s)
      else
        respond (s.updateRide rideId
          { status := some RideStatus.in_progress
            startedAt := some now
            currentLocation := some (some ride.pickup) })

/-- JS truthiness of the optional validated `rating` field
(`completedBy === '...' && rating`). -/
def ratingTruthy : Option ℚ → Bool
  | none => false
  | some r => r ≠ 0

/-- The `storage.updateUser` payload built by the complete handler for
the rated party (written out twice in the source, once per branch):
running average re-rounded to one decimal, completed-ride count plus one,
reputation plus two capped at 100. -/
def ratedUserUpdate (u : User) (q : ℚ) : UserUpdates :=
  { avgRating := some (roundTo1
      ((u.avgRating * u.completedRides + q) / (u.completedRides + 1)))
    completedRides := some (u.completedRides + 1)
    reputation := some (min 100 (u.reputation + 2)) }

/-- The status half of the complete handler's `updates` object: only an
`in_progress` ride with no `completedAt` yet transitions. -/
def completeStatusUpdates (ride : Ride) (now : Nat) : RideUpdates :=
  if ride.status = RideStatus.in_progress ∧ ride.completedAt = none then
    { status := some RideStatus.completed
      completedAt := some now
      actualFare := some ride.estimatedFare }
  else {}

/-- `feedback || null`: JS coerces an absent or empty-string feedback to
null before storing it. -/
def orNull (feedback : Option String) : Option String :=
  match feedback with
  | some f => if f = "" then none else some f
  | none => none

/-- The rating half of the complete handler: extends the `updates` object
with the submitted rating/feedback fields and applies the counterparty's
user update (when the counterparty exists in the store).  Returns the
final `updates` object and the store after the user update. -/
def completeRatingStep (s : Storage) (ride : Ride) (completedBy : Role)
    (rating : Option ℚ) (feedback : Option String) (updates₀ : RideUpdates) :
    RideUpdates × Storage :=
  if completedBy = Role.customer ∧ ratingTruthy rating then
    ({ updates₀ with driverRating := rating, customerFeedback := some (orNull feedback) },
     match ride.driverId with
     | some did =>
         match s.getUser did with
         | some driver => (s.updateUser did (ratedUserUpdate driver (rating.getD 0))).2
         | none => s
     | none => s)
  else if completedBy = Role.driver ∧ ratingTruthy rating then
    ({ updates₀ with customerRating := rating, driverFeedback := some (orNull feedback) },
     match s.getUser ride.customerId with
     | some customer =>
         (s.updateUser ride.customerId (ratedUserUpdate customer (rating.getD 0))).2
     | none => s)
  else (updates₀, s)

/-- `POST /api/rides/:rideId/complete`.  Builds the `updates` object
(status half only from `in_progress` with no `completedAt`; rating half
per `completedBy`), updates the counterparty's running average / count /
reputation when that user exists, then merges the ride updates.  There is
no status or ownership guard: any existing ride responds 200. -/
def completeRide (s : Storage) (rideId : String) (completedBy : Role)
    (rating : Option ℚ) (feedback : Option String) (now : Nat) :
    Except ApiErr Ride × Storage :=
  match s.getRide rideId with
  | none => (Except.error (ApiErr.notFound "Ride not found"), s)
  | some ride =>
      let step := completeRatingStep s ride completedBy rating feedback
        (completeStatusUpdates ride now)
      respond (step.2.updateRide rideId step.1)

/-- `POST /api/rides/:rideId/cancel`.  `userId` comes from the raw body;
the two `!==` comparisons are strict, so a `null` body value compares
equal to a `null` stored `driverId`. -/
def cancelRide (s : Storage) (rideId : String) (userId : Option String) (now : Nat) :
    Except ApiErr Ride × Storage :=
  match s.getRide rideId with
  | none => (Except.error (ApiErr.notFound "Ride not found"), s)
  | some ride =>
      if ride.status ≠ RideStatus.waiting ∧ ride.status ≠ RideStatus.accepted then
        (Except.error (ApiErr.conflict "Ride cannot be cancelled"), s)
      else if some ride.customerId ≠ userId ∧ ride.driverId ≠ userId then
        (Except.error (ApiErr.forbidden "Not authorized"), s)
      else
        respond (s.updateRide rideId
          { status := some RideStatus.cancelled
            completedAt := some now })

/-! ### The public operations as a step machine -/

/-- One call to a public ride operation (`POST /api/rides/request`,
`/accept`, `/start`, `/complete`, `/cancel`), with every environment
input (fresh id, clock instant, random offsets) explicit. -/
inductive Op
  | createRide (newId customerId : String) (pickup dropoff : Location)
      (estimatedFare stakedAmount : ℚ) (now : Nat)
  | accept (rideId driverId : String) (rand : ℚ × ℚ)
  | start (rideId : String) (driverId : Option String) (now : Nat)
  | complete (rideId : String) (completedBy : Role) (rating : Option ℚ)
      (feedback : Option String) (now : Nat)
  | cancel (rideId : String) (userId : Option String) (now : Nat)

/-- Apply one operation to the store, discarding the HTTP response. -/
def applyOp (s : Storage) : Op → Storage
  | Op.createRide newId customerId pickup dropoff fare staked now =>
      (s.createRide newId customerId pickup dropoff fare staked now).2
  | Op.accept rideId driverId rand => (acceptRide s rideId driverId rand).2
  | Op.start rideId driverId now => (startRide s rideId driverId now).2
  | Op.complete rideId completedBy rating feedback now =>
      (completeRide s rideId completedBy rating feedback now).2
  | Op.cancel rideId userId now => (cancelRide s rideId userId now).2

def runOps (s : Storage) (ops : List Op) : Storage :=
  ops.foldl applyOp s

/-- Demo driver 1 from `seedDemoData`. -/
def demoDriver1 : User :=
  { id := "demo-driver-1", walletAddress := "0xdriver1...abc"
    role := Role.driver, reputation := 78, completedRides := 45
    avgRating := 47/10, balance := 4910/20, name := some "Marcus Chen" }

/-- Demo driver 2 from `seedDemoData`. -/
def demoDriver2 : User :=
  { id := "demo-driver-2", walletAddress := "0xdriver2...def"
    role := Role.driver, reputation := 92, completedRides := 120
    avgRating := 49/10, balance := 89025/100, name := some "Sarah Johnson" }

/-- Demo customer 1 from `seedDemoData`. -/
def demoCustomer1 : User :=
  { id := "demo-customer-1", walletAddress := "0xcustomer1...xyz"
    role := Role.customer, reputation := 65, completedRides := 12
    avgRating := 45/10, balance := 150, name := some "Emma Thompson" }

/-- Demo customer 2 from `seedDemoData`. -/
def demoCustomer2 : User :=
  { id := "demo-customer-2", walletAddress := "0xcustomer2...uvw"
    role := Role.customer, reputation := 88, completedRides := 34
    avgRating := 48/10, balance := 755/10, name := some "David Park" }

/-- Demo customer 3 from `seedDemoData`. -/
def demoCustomer3 : User :=
  { id := "demo-customer-3", walletAddress := "0xcustomer3...rst"
    role := Role.customer, reputation := 72, completedRides := 8
    avgRating := 43/10, balance := 200, name := some "Lisa Wang" }

/-- Demo ride 1 from `seedDemoData` (waiting, no driver). -/
def demoRide1 : Ride :=
  { id := "demo-ride-1", customerId := "demo-customer-1", driverId := none
    pickup := { lat := 377849/10000, lng := -1224094/10000
                address := some "Market Street, Downtown" }
    dropoff := { lat := 376213/10000, lng := -1223790/10000
                 address := some "Airport Terminal 1, SFO" }
    estimatedFare := 57/2, stakedAmount := 3278/100, actualFare := none
    status := RideStatus.waiting, currentLocation := none, createdAt := 0
    startedAt := none, completedAt := none, customerRating := none
    driverRating := none, customerFeedback := none, driverFeedback := none }

/-- Demo ride 2 from `seedDemoData` (waiting, no driver). -/
def demoRide2 : Ride :=
  { id := "demo-ride-2", customerId := "demo-customer-2", driverId := none
    pickup := { lat := 378080/10000, lng := -1224177/10000
                address := some "Fisherman's Wharf, SF" }
    dropoff := { lat := 377879/10000, lng := -1224074/10000
                 address := some "Union Square, Downtown" }
    estimatedFare := 1275/100, stakedAmount := 1466/100, actualFare := none
    status := RideStatus.waiting, currentLocation := none, createdAt := 0
    startedAt := none, completedAt := none, customerRating := none
    driverRating := none, customerFeedback := none, driverFeedback := none }

/-- Demo ride 3 from `seedDemoData` (waiting, no driver). -/
def demoRide3 : Ride :=
  { id := "demo-ride-3", customerId := "demo-customer-3", driverId := none
    pickup := { lat := 377609/10000, lng := -1224350/10000
                address := some "Castro District, SF" }
    dropoff := { lat := 378199/10000, lng := -1224783/10000
                 address := some "Golden Gate Bridge" }
    estimatedFare := 1825/100, stakedAmount := 2099/100, actualFare := none
    status := RideStatus.waiting, currentLocation := none, createdAt := 0
    startedAt := none, completedAt := none, customerRating := none
    driverRating := none, customerFeedback := none, driverFeedback := none }

/-- The store as built by the `MemStorage` constructor
(`seedDemoData`): two demo drivers, three waiting demo rides, three demo
customers, inserted in that order.  The `new Date()` creation instants
are modelled as 0. -/
def seedStorage : Storage :=
  { users :=
      [ ("demo-driver-1", demoDriver1)
      , ("demo-driver-2", demoDriver2)
      , ("demo-customer-1", demoCustomer1)
      , ("demo-customer-2", demoCustomer2)
      , ("demo-customer-3", demoCustomer3) ]
    rides :=
      [ ("demo-ride-1", demoRide1)
      , ("demo-ride-2", demoRide2)
      , ("demo-ride-3", demoRide3) ] }

/-! ### WebSocket subscription registry and location relay
(`server/routes.ts`, `wss.on('connection')` handler)

Connections are identified by `Nat`.  `subs` models the module-level
`rideSubscriptions : Map<rideId, Set<WebSocket>>` (a `Set` is a list kept
duplicate-free by the `add` model), `current` models each connection's
closure variable `subscribedRideId` (`null` = absent key), `locations`
models `rideLocations`, `stor` the entity store written to by
`location_update`, and `sent` is a log of `(connection, payload)` frames
pushed by the server. -/

structure WsState where
  subs : List (String × List Nat)
  current : List (Nat × String)
  locations : List (String × LocationUpdate)
  stor : Storage
  sent : List (Nat × LocationUpdate)
deriving DecidableEq, Repr

/-- The shared removal pattern (`subs.delete(ws); if (subs.size === 0)
rideSubscriptions.delete(rideId)`), used by the subscribe, unsubscribe
and close handlers. -/
def removeSub (subs : List (String × List Nat)) (c : Nat) (rid : String) :
    List (String × List Nat) :=
  match getKey subs rid with
  | none => subs
  | some set =>
      let set' := set.erase c
      if set' = [] then delKey subs rid else setKey subs rid set'

/-- First half of the subscribe case: drop the connection from its
previous ride's set, if it was subscribed (`if (subscribedRideId)`). -/
def subsAfterPrevRemoval (st : WsState) (c : Nat) : List (String × List Nat) :=
  match getKey st.current c with
  | none => st.subs
  | some prev => if prev = "" then st.subs else removeSub st.subs c prev

/-- Second half of the subscribe case: create the new ride's entry if
missing, then `Set.add` the connection (no duplicate is added). -/
def subsAfterAdd (subs : List (String × List Nat)) (c : Nat) (rid : String) :
    List (String × List Nat) :=
  match getKey subs rid with
  | none => setKey subs rid [c]
  | some set => setKey subs rid (if c ∈ set then set else set ++ [c])

/-- `case 'subscribe'`: guarded by `if (rideId)` (empty string is falsy);
drops the connection from its previous ride's set (with empty-set key
cleanup), records the new subscription, adds the connection to the new
ride's set, and immediately sends the ride's last-known location when
one is stored. -/
def wsSubscribe (st : WsState) (c : Nat) (rid : String) : WsState :=
  if rid = "" then st
  else
    { st with
      subs := subsAfterAdd (subsAfterPrevRemoval st c) c rid
      current := setKey st.current c rid
      sent :=
        match getKey st.locations rid with
        | some loc => st.sent ++ [(c, loc)]
        | none => st.sent }

/-- `case 'unsubscribe'`: guarded by the truthiness of
`subscribedRideId`; removes the connection from its current ride's set
and nulls the subscription. -/
def wsUnsubscribe (st : WsState) (c : Nat) : WsState :=
  match getKey st.current c with
  | none => st
  | some prev =>
      if prev = "" then st
      else
        { st with
          subs := removeSub st.subs c prev
          current := delKey st.current c }

/-- The `ws.on('close')` cleanup: same removal as unsubscribe (the
connection object then goes away, so its `subscribedRideId` is dropped
from the model). -/
def wsClose (st : WsState) (c : Nat) : WsState :=
  match getKey st.current c with
  | none => st
  | some prev =>
      if prev = "" then st
      else
        { st with
          subs := removeSub st.subs c prev
          current := delKey st.current c }

/-- `case 'location_update'` (guarded by `if (rideId && messageData)`):
stores the sample as the ride's latest location, persists it into the
entity store, and fans it out to every subscriber of the ride other than
the sender.  (Connections in `subs` are modelled as open: the server's
close handler removes a closed connection synchronously.) -/
def wsLocationUpdate (st : WsState) (c : Nat) (rid : String) (loc : LocationUpdate) :
    WsState :=
  if rid = "" then st
  else
    let stor' := (st.stor.updateRide rid
      { currentLocation := some (some { lat := loc.lat, lng := loc.lng }) }).2
    let recipients :=
      match getKey st.subs rid with
      | none => []
      | some set => (set.filter (· ≠ c)).map (fun c' => (c', loc))
    { st with
      locations := setKey st.locations rid loc
      stor := stor'
      sent := st.sent ++ recipients }

/-- One live-channel event. -/
inductive WsOp
  | subscribe (c : Nat) (rid : String)
  | unsubscribe (c : Nat)
  | disconnect (c : Nat)
  | locationUpdate (c : Nat) (rid : String) (loc : LocationUpdate)

def applyWsOp (st : WsState) : WsOp → WsState
  | WsOp.subscribe c rid => wsSubscribe st c rid
  | WsOp.unsubscribe c => wsUnsubscribe st c
  | WsOp.disconnect c => wsClose st c
  | WsOp.locationUpdate c rid loc => wsLocationUpdate st c rid loc

def runWsOps (st : WsState) (ops : List WsOp) : WsState :=
  ops.foldl applyWsOp st

/-- Server start: both module-level maps empty, no connections. -/
def initWsState : WsState :=
  { subs := [], current := [], locations := [], stor := seedStorage, sent := [] }

/-! ### Test fixtures and claim-level invariant definitions -/

/-- A completed ride used as a concrete test fixture. -/
def fixtureCompletedRide : Ride :=
  { id := "r1", customerId := "c1", driverId := some "d1"
    pickup := { lat := 0, lng := 0 }, dropoff := { lat := 1, lng := 1 }
    estimatedFare := 20, stakedAmount := 23, actualFare := some 20
    status := RideStatus.completed, currentLocation := none, createdAt := 0
    startedAt := some 1, completedAt := some 2, customerRating := none
    driverRating := none, customerFeedback := none, driverFeedback := none }

/-- A waiting ride used as a concrete test fixture. -/
def fixtureWaitingRide : Ride :=
  { id := "r1", customerId := "c1", driverId := none
    pickup := { lat := 0, lng := 0 }, dropoff := { lat := 1, lng := 1 }
    estimatedFare := 20, stakedAmount := 23, actualFare := none
    status := RideStatus.waiting, currentLocation := none, createdAt := 0
    startedAt := none, completedAt := none, customerRating := none
    driverRating := none, customerFeedback := none, driverFeedback := none }

/-- The forward half of the spec's invariant: every stored `waiting` ride
has a null driver id. -/
def WaitingRidesHaveNoDriver (s : Storage) : Prop :=
  ∀ e ∈ s.rides, e.2.status = RideStatus.waiting → e.2.driverId = none

/-- An accepted ride used as a concrete test fixture. -/
def fixtureAcceptedRide : Ride :=
  { id := "r1", customerId := "c1", driverId := some "d1"
    pickup := { lat := 0, lng := 0 }, dropoff := { lat := 1, lng := 1 }
    estimatedFare := 20, stakedAmount := 23, actualFare := none
    status := RideStatus.accepted, currentLocation := none, createdAt := 0
    startedAt := none, completedAt := none, customerRating := none
    driverRating := none, customerFeedback := none, driverFeedback := none }

/-- A driver user used as a concrete test fixture. -/
def fixtureDriver : User :=
  { id := "d1", walletAddress := "0xd1", role := Role.driver
    reputation := 80, completedRides := 10, avgRating := 4, balance := 100
    name := some "Dan" }

/-- The accepted fixture ride stored under id "r0" (the driver's current
active ride). -/
def fixtureActiveRide : Ride :=
  { fixtureAcceptedRide with id := "r0" }

/-- Store in which driver "d1" already has an active (accepted) ride and
a second waiting ride exists. -/
def fixtureStorage4 : Storage :=
  { users := [("d1", fixtureDriver)]
    rides := [("r0", fixtureActiveRide), ("r1", fixtureWaitingRide)] }

/-- A cancelled ride used as a concrete test fixture. -/
def fixtureCancelledRide : Ride :=
  { fixtureWaitingRide with status := RideStatus.cancelled, completedAt := some 3 }

/-- An in-progress ride used as a concrete test fixture. -/
def fixtureInProgressRide : Ride :=
  { fixtureAcceptedRide with status := RideStatus.in_progress, startedAt := some 2 }

/-- A customer user used as a concrete test fixture. -/
def fixtureCustomer : User :=
  { id := "c1", walletAddress := "0xc1", role := Role.customer
    reputation := 60, completedRides := 6, avgRating := 3, balance := 50
    name := some "Cleo" }

/-- Store with one cancelled ride and its customer. -/
def fixtureStorage9 : Storage :=
  { users := [("c1", fixtureCustomer)]
    rides := [("r1", fixtureCancelledRide)] }

/-- Store with one in-progress ride and its driver. -/
def fixtureStorage2 : Storage :=
  { users := [("d1", fixtureDriver)]
    rides := [("r1", fixtureInProgressRide)] }

/-- Well-formedness of the `rideSubscriptions` map: unique keys (it is a
JS `Map`), and every entry has a nonempty, duplicate-free connection set
under a non-empty ride id (empty-string ride ids are falsy and never
subscribed). -/
def GoodEntries (subs : List (String × List Nat)) : Prop :=
  (subs.map Prod.fst).Nodup ∧
  ∀ e ∈ subs, e.2 ≠ [] ∧ e.1 ≠ "" ∧ e.2.Nodup

/-- Registry invariant: well-formed entries, and every connection found in
a ride's set has that ride recorded as its `subscribedRideId`. -/
def WsInv (st : WsState) : Prop :=
  GoodEntries st.subs ∧
  ∀ e ∈ st.subs, ∀ c ∈ e.2, getKey st.current c = some e.1

/-- A GPS sample used as a concrete test fixture. -/
def fixtureLoc : LocationUpdate := { lat := 1, lng := 2, timestamp := 5 }

/-- A live-channel state used as a concrete test fixture: connection 1 is
subscribed to ride "rA", and ride "rB" has a stored last-known location. -/
def fixtureWs : WsState :=
  { subs := [("rA", [1])]
    current := [(1, "rA")]
    locations := [("rB", fixtureLoc)]
    stor := { users := [], rides := [] }
    sent := [] }

/-! ## Lemmas and claim theorems -/

theorem getKey_setKey_self {κ α : Type} [DecidableEq κ] (l : List (κ × α)) (k : κ) (v : α) :
    getKey (setKey l k v) k = some v := by
  induction l with
  | nil => simp [setKey, getKey]
  | cons hd tl ih =>
    obtain ⟨k', v'⟩ := hd
    by_cases h : k' = k
    · simp [setKey, h, getKey]
    · simp [setKey, h, getKey, ih]

theorem getKey_setKey_ne {κ α : Type} [DecidableEq κ] (l : List (κ × α)) (k k' : κ) (v : α)
    (h : k ≠ k') : getKey (setKey l k v) k' = getKey l k' := by
  induction l with
  | nil => simp [setKey, getKey, h]
  | cons hd tl ih =>
    obtain ⟨k₀, v₀⟩ := hd
    by_cases h₀ : k₀ = k
    · subst h₀
      simp [setKey, getKey, h]
    · simp [setKey, h₀, getKey, ih]

theorem mem_setKey {κ α : Type} [DecidableEq κ] (l : List (κ × α)) (k : κ) (v : α) (e : κ × α) :
    e ∈ setKey l k v → e = (k, v) ∨ e ∈ l := by
  induction l with
  | nil => intro he; simpa [setKey] using he
  | cons hd tl ih =>
    intro he
    obtain ⟨k₀, v₀⟩ := hd
    by_cases h₀ : k₀ = k
    · subst h₀
      rw [show setKey ((k₀, v₀) :: tl) k₀ v = (k₀, v) :: tl from by simp [setKey]] at he
      exact (List.mem_cons.mp he).imp id (List.mem_cons_of_mem _)
    · rw [show setKey ((k₀, v₀) :: tl) k v = (k₀, v₀) :: setKey tl k v from by
        simp [setKey, h₀]] at he
      rcases List.mem_cons.mp he with h1 | h1
      · exact Or.inr (h1 ▸ List.mem_cons_self _ _)
      · exact (ih h1).imp id (List.mem_cons_of_mem _)

theorem getKey_mem {κ α : Type} [DecidableEq κ] (l : List (κ × α)) (k : κ) (v : α) :
    getKey l k = some v → (k, v) ∈ l := by
  induction l with
  | nil => intro h; simp [getKey] at h
  | cons hd tl ih =>
    intro h
    obtain ⟨k₀, v₀⟩ := hd
    by_cases h₀ : k₀ = k
    · subst h₀
      rw [show getKey ((k₀, v₀) :: tl) k₀ = some v₀ from by simp [getKey]] at h
      obtain rfl : v₀ = v := by injection h
      exact List.mem_cons_self _ _
    · rw [show getKey ((k₀, v₀) :: tl) k = getKey tl k from by simp [getKey, h₀]] at h
      exact List.mem_cons_of_mem _ (ih h)

theorem mem_delKey {κ α : Type} [DecidableEq κ] (l : List (κ × α)) (k : κ) (e : κ × α) :
    e ∈ delKey l k → e ∈ l := by
  induction l with
  | nil => intro he; simp [delKey] at he
  | cons hd tl ih =>
    intro he
    obtain ⟨k₀, v₀⟩ := hd
    by_cases h₀ : k₀ = k
    · subst h₀
      rw [show delKey ((k₀, v₀) :: tl) k₀ = delKey tl k₀ from by simp [delKey]] at he
      exact List.mem_cons_of_mem _ (ih he)
    · rw [show delKey ((k₀, v₀) :: tl) k = (k₀, v₀) :: delKey tl k from by
        simp [delKey, h₀]] at he
      rcases List.mem_cons.mp he with h1 | h1
      · exact h1 ▸ List.mem_cons_self _ _
      · exact List.mem_cons_of_mem _ (ih h1)

theorem respond_snd (p : Option Ride × Storage) : (respond p).2 = p.2 := by
  obtain ⟨x, s'⟩ := p
  cases x <;> rfl

theorem respond_of_some (p : Option Ride × Storage) (r : Ride) (h : p.1 = some r) :
    respond p = (Except.ok r, p.2) := by
  obtain ⟨x, s'⟩ := p
  cases x with
  | none => simp at h
  | some y => obtain rfl : y = r := by simpa using h
              rfl

theorem acceptRide_eq_of_nonwaiting (s : Storage) (rideId driverId : String)
    (rand : ℚ × ℚ) (r : Ride) (hr : s.getRide rideId = some r)
    (hst : r.status ≠ RideStatus.waiting) :
    acceptRide s rideId driverId rand
      = (Except.error (ApiErr.conflict "Ride is no longer available"), s) := by
  unfold acceptRide
  rw [hr]
  simp [hst]

theorem acceptRide_eq_of_active (s : Storage) (rideId driverId : String)
    (rand : ℚ × ℚ) (r : Ride) (hr : s.getRide rideId = some r)
    (hw : r.status = RideStatus.waiting) (hact : (s.getActiveRide driverId).isSome) :
    acceptRide s rideId driverId rand
      = (Except.error (ApiErr.conflict "You already have an active ride"), s) := by
  obtain ⟨r0, hr0⟩ := Option.isSome_iff_exists.mp hact
  unfold acceptRide
  rw [hr]
  dsimp only
  rw [if_neg (by simp [hw]), hr0]

/-- Ingredient for the one-active-ride guard: a driver-role user who is
the assigned driver of some stored active-status ride makes
`getActiveRide` return a ride. -/
theorem getActiveRide_isSome_of_driver (s : Storage) (d : String) (u : User)
    (hu : s.getUser d = some u) (hrole : u.role = Role.driver)
    (k0 : String) (r0 : Ride) (h0 : (k0, r0) ∈ s.rides)
    (hact : isActiveStatus r0.status = true) (hdrv : r0.driverId = some d) :
    (s.getActiveRide d).isSome := by
  unfold Storage.getActiveRide
  unfold Storage.getUser at hu
  rw [hu]
  dsimp only
  rw [hrole, Option.isSome_map']
  rw [List.find?_isSome]
  exact ⟨(k0, r0), h0, by simp [hact, hdrv]⟩

/-- C3: accepting a ride whose stored status is not `waiting` fails with
the Conflict error ("Ride is no longer available") and returns the store
unchanged — the status guard runs before any mutation, so every stored
field of every ride is untouched. -/
theorem accept_nonwaiting_conflict (s : Storage) (rideId driverId : String)
    (rand : ℚ × ℚ) (r : Ride) (hr : s.getRide rideId = some r)
    (hst : r.status ≠ RideStatus.waiting) :
    acceptRide s rideId driverId rand
      = (Except.error (ApiErr.conflict "Ride is no longer available"), s) :=
  acceptRide_eq_of_nonwaiting s rideId driverId rand r hr hst

/-- Concrete instance of `accept_nonwaiting_conflict`: accepting a
completed ride is rejected and the store is returned unchanged. -/
theorem accept_nonwaiting_conflict_check :
    ({ users := [], rides := [("r1", fixtureCompletedRide)] } : Storage).getRide "r1"
        = some fixtureCompletedRide ∧
    fixtureCompletedRide.status ≠ RideStatus.waiting ∧
    acceptRide { users := [], rides := [("r1", fixtureCompletedRide)] } "r1" "d9" (0, 0)
      = (Except.error (ApiErr.conflict "Ride is no longer available"),
         { users := [], rides := [("r1", fixtureCompletedRide)] }) :=
  ⟨rfl, by decide,
   accept_nonwaiting_conflict _ "r1" "d9" (0, 0) fixtureCompletedRide rfl (by decide)⟩

theorem updateUser_rides (s : Storage) (id : String) (u : UserUpdates) :
    (s.updateUser id u).2.rides = s.rides := by
  unfold Storage.updateUser
  cases getKey s.users id <;> rfl

theorem completeRatingStep_rides (s : Storage) (ride : Ride) (cb : Role)
    (rating : Option ℚ) (fb : Option String) (u₀ : RideUpdates) :
    (completeRatingStep s ride cb rating fb u₀).2.rides = s.rides := by
  unfold completeRatingStep
  split
  · dsimp only
    cases ride.driverId with
    | none => rfl
    | some did =>
      dsimp only
      cases s.getUser did with
      | none => rfl
      | some driver => exact updateUser_rides ..
  · split
    · dsimp only
      cases s.getUser ride.customerId with
      | none => rfl
      | some customer => exact updateUser_rides ..
    · rfl

theorem completeRatingStep_status (s : Storage) (ride : Ride) (cb : Role)
    (rating : Option ℚ) (fb : Option String) (u₀ : RideUpdates) :
    (completeRatingStep s ride cb rating fb u₀).1.status = u₀.status ∧
    (completeRatingStep s ride cb rating fb u₀).1.driverId = u₀.driverId := by
  unfold completeRatingStep
  split
  · exact ⟨rfl, rfl⟩
  · split
    · exact ⟨rfl, rfl⟩
    · exact ⟨rfl, rfl⟩

theorem completeStatusUpdates_driverId (ride : Ride) (now : Nat) :
    (completeStatusUpdates ride now).driverId = none := by
  unfold completeStatusUpdates
  split <;> rfl

theorem completeStatusUpdates_status (ride : Ride) (now : Nat) :
    (completeStatusUpdates ride now).status = some RideStatus.completed ∨
    (completeStatusUpdates ride now).status = none := by
  unfold completeStatusUpdates
  split
  · exact Or.inl rfl
  · exact Or.inr rfl

theorem waiting_inv_of_rides_eq {s₁ s₂ : Storage} (h : s₂.rides = s₁.rides)
    (hinv : WaitingRidesHaveNoDriver s₁) : WaitingRidesHaveNoDriver s₂ := by
  intro e he hw
  exact hinv e (h ▸ he) hw

theorem updateRide_waiting_inv (s : Storage) (id : String) (u : RideUpdates)
    (hinv : WaitingRidesHaveNoDriver s)
    (hs : ∀ r, getKey s.rides id = some r →
      (applyRideUpdates r u).status = RideStatus.waiting →
      (applyRideUpdates r u).driverId = none) :
    WaitingRidesHaveNoDriver (s.updateRide id u).2 := by
  unfold Storage.updateRide
  cases hget : getKey s.rides id with
  | none => exact hinv
  | some r =>
      intro e he hw
      rcases mem_setKey s.rides id (applyRideUpdates r u) e he with h1 | h1
      · rw [h1] at hw ⊢
        exact hs r hget hw
      · exact hinv e h1 hw

theorem applyOp_waiting_inv (s : Storage) (op : Op)
    (hinv : WaitingRidesHaveNoDriver s) : WaitingRidesHaveNoDriver (applyOp s op) := by
  cases op with
  | createRide newId customerId pickup dropoff fare staked now =>
      intro e he hw
      simp only [applyOp, Storage.createRide] at he
      rcases mem_setKey s.rides newId _ e he with h1 | h1
      · rw [h1]
      · exact hinv e h1 hw
  | accept rideId driverId rand =>
      simp only [applyOp]
      unfold acceptRide
      cases hget : s.getRide rideId with
      | none => exact hinv
      | some r =>
        dsimp only
        split
        · exact hinv
        · split
          · exact hinv
          · rw [respond_snd]
            refine updateRide_waiting_inv s rideId _ hinv ?_
            intro r0 hr0 hw0
            simp [applyRideUpdates] at hw0
  | start rideId driverId now =>
      simp only [applyOp]
      unfold startRide
      cases hget : s.getRide rideId with
      | none => exact hinv
      | some r =>
        dsimp only
        split
        · exact hinv
        · split
          · exact hinv
          · rw [respond_snd]
            refine updateRide_waiting_inv s rideId _ hinv ?_
            intro r0 hr0 hw0
            simp [applyRideUpdates] at hw0
  | cancel rideId userId now =>
      simp only [applyOp]
      unfold cancelRide
      cases hget : s.getRide rideId with
      | none => exact hinv
      | some r =>
        dsimp only
        split
        · exact hinv
        · split
          · exact hinv
          · rw [respond_snd]
            refine updateRide_waiting_inv s rideId _ hinv ?_
            intro r0 hr0 hw0
            simp [applyRideUpdates] at hw0
  | complete rideId completedBy rating feedback now =>
      simp only [applyOp]
      unfold completeRide
      cases hget : s.getRide rideId with
      | none => exact hinv
      | some r =>
        dsimp only
        rw [respond_snd]
        refine updateRide_waiting_inv _ rideId _
          (waiting_inv_of_rides_eq (completeRatingStep_rides ..) hinv) ?_
        intro r0 hr0 hw0
        rw [completeRatingStep_rides] at hr0
        have hstat := (completeRatingStep_status s r completedBy rating feedback
          (completeStatusUpdates r now)).1
        have hdrv := (completeRatingStep_status s r completedBy rating feedback
          (completeStatusUpdates r now)).2
        rw [completeStatusUpdates_driverId] at hdrv
        rcases completeStatusUpdates_status r now with hcs | hcs
        · rw [hcs] at hstat
          simp [applyRideUpdates, hstat] at hw0
        · rw [hcs] at hstat
          simp only [applyRideUpdates] at hw0 ⊢
          rw [hstat] at hw0
          rw [hdrv]
          simp only [Option.getD_none] at hw0 ⊢
          exact hinv (rideId, r0) (getKey_mem s.rides rideId r0 hr0) hw0

theorem runOps_waiting_inv (s : Storage) (ops : List Op)
    (hinv : WaitingRidesHaveNoDriver s) : WaitingRidesHaveNoDriver (runOps s ops) := by
  induction ops generalizing s with
  | nil => exact hinv
  | cons op rest ih => exact ih (applyOp s op) (applyOp_waiting_inv s op hinv)

/-- C1 counterexample: starting from the seeded store, create a ride and
let its customer cancel it while still `waiting`.  The cancelled ride
keeps `driverId = null` with `status = 'cancelled'`, so "driverId is null
iff status is waiting" fails in the null-implies-waiting direction. -/
theorem waiting_iff_no_driver_counterexample :
    (((runOps seedStorage
        [ Op.createRide "r1" "c1" { lat := 0, lng := 0 } { lat := 1, lng := 1 } 20 23 0
        , Op.cancel "r1" (some "c1") 1 ]).getRide "r1").map
      (fun r => (r.driverId, r.status)))
      = some (none, RideStatus.cancelled) := by decide

/-- C1 (amended): for every ride reachable from the seeded store through
the public operations, `waiting` status implies a null driver id.  (The
converse direction is false: cancelling a waiting ride leaves the driver
id null with status `cancelled`.) -/
theorem waiting_rides_have_no_driverId (ops : List Op) (e : String × Ride)
    (he : e ∈ (runOps seedStorage ops).rides)
    (hw : e.2.status = RideStatus.waiting) : e.2.driverId = none :=
  runOps_waiting_inv seedStorage ops
    (by unfold WaitingRidesHaveNoDriver; decide) e he hw

/-- Concrete instance of `waiting_rides_have_no_driverId` at the empty
operation list and the first seeded ride. -/
theorem waiting_rides_have_no_driverId_check :
    (("demo-ride-1", demoRide1) ∈ (runOps seedStorage []).rides ∧
      demoRide1.status = RideStatus.waiting) ∧
    demoRide1.driverId = none :=
  ⟨⟨List.mem_cons_self _ _, rfl⟩,
   waiting_rides_have_no_driverId [] ("demo-ride-1", demoRide1)
     (List.mem_cons_self _ _) rfl⟩

theorem updateRide_of_getRide (s : Storage) (id : String) (u : RideUpdates) (r : Ride)
    (h : s.getRide id = some r) :
    s.updateRide id u = (some (applyRideUpdates r u),
      { s with rides := setKey s.rides id (applyRideUpdates r u) }) := by
  unfold Storage.getRide at h
  unfold Storage.updateRide
  rw [h]

/-- C8 counterexample: the cancel handler compares the raw body `userId`
to `customerId` and `driverId` with strict `!==`, so a JSON `null`
`userId` matches the null `driverId` of a waiting ride.  A caller that is
neither the ride's customer (`"c1"`) nor an assigned driver (there is
none) cancels the ride instead of receiving Forbidden. -/
theorem cancel_forbidden_counterexample :
    fixtureWaitingRide.customerId = "c1" ∧
    fixtureWaitingRide.driverId = none ∧
    (cancelRide { users := [], rides := [("r1", fixtureWaitingRide)] }
        "r1" none 5).1.isOk = true ∧
    (((cancelRide { users := [], rides := [("r1", fixtureWaitingRide)] }
        "r1" none 5).2.getRide "r1").map (·.status)) = some RideStatus.cancelled := by
  refine ⟨rfl, rfl, ?_, ?_⟩ <;> decide

/-- C8 (amended): cancel succeeds exactly from `waiting`/`accepted` with a
`userId` strictly equal to the ride's `customerId` or stored `driverId`
(a null `userId` thus matches the null `driverId` of a waiting ride);
status violations give Conflict (in particular every attempt on a
`completed` ride, whoever calls), authorization violations give Forbidden,
and a successful call stores status `cancelled` with `completedAt` set. -/
theorem cancel_guard_characterization (s : Storage) (rideId : String)
    (userId : Option String) (now : Nat) (r : Ride)
    (hr : s.getRide rideId = some r) :
    ((cancelRide s rideId userId now).1.isOk = true ↔
       ((r.status = RideStatus.waiting ∨ r.status = RideStatus.accepted) ∧
        (userId = some r.customerId ∨ userId = r.driverId))) ∧
    (r.status = RideStatus.completed →
       cancelRide s rideId userId now
         = (Except.error (ApiErr.conflict "Ride cannot be cancelled"), s)) ∧
    ((r.status = RideStatus.waiting ∨ r.status = RideStatus.accepted) →
     ¬(userId = some r.customerId ∨ userId = r.driverId) →
       cancelRide s rideId userId now
         = (Except.error (ApiErr.forbidden "Not authorized"), s)) ∧
    ((cancelRide s rideId userId now).1.isOk = true →
       cancelRide s rideId userId now
         = (Except.ok (applyRideUpdates r
              { status := some RideStatus.cancelled, completedAt := some now }),
            { s with rides := setKey s.rides rideId (applyRideUpdates r
              { status := some RideStatus.cancelled, completedAt := some now }) })) := by
  have hbody : cancelRide s rideId userId now =
      if r.status ≠ RideStatus.waiting ∧ r.status ≠ RideStatus.accepted then
        (Except.error (ApiErr.conflict "Ride cannot be cancelled"), s)
      else if some r.customerId ≠ userId ∧ r.driverId ≠ userId then
        (Except.error (ApiErr.forbidden "Not authorized"), s)
      else
        respond (s.updateRide rideId
          { status := some RideStatus.cancelled, completedAt := some now }) := by
    unfold cancelRide
    rw [hr]
  by_cases hst : r.status = RideStatus.waiting ∨ r.status = RideStatus.accepted
  · by_cases hauth : userId = some r.customerId ∨ userId = r.driverId
    · have hok : cancelRide s rideId userId now
          = (Except.ok (applyRideUpdates r
               { status := some RideStatus.cancelled, completedAt := some now }),
             { s with rides := setKey s.rides rideId (applyRideUpdates r
               { status := some RideStatus.cancelled, completedAt := some now }) }) := by
        rw [hbody, if_neg (by tauto), if_neg (by tauto),
          updateRide_of_getRide s rideId _ r hr]
        exact respond_of_some _ _ rfl
      refine ⟨?_, ?_, ?_, ?_⟩
      · rw [hok]
        exact iff_of_true rfl ⟨hst, hauth⟩
      · intro hc
        rcases hst with h | h <;> rw [h] at hc <;> cases hc
      · intro _ hna
        exact absurd hauth hna
      · intro _
        exact hok
    · have herr : cancelRide s rideId userId now
          = (Except.error (ApiErr.forbidden "Not authorized"), s) := by
        rw [hbody, if_neg (by tauto), if_pos (by tauto)]
      refine ⟨?_, ?_, ?_, ?_⟩
      · rw [herr]
        exact iff_of_false (fun h => nomatch h) (fun h => absurd h.2 hauth)
      · intro hc
        rcases hst with h | h <;> rw [h] at hc <;> cases hc
      · intro _ _
        exact herr
      · intro hok
        rw [herr] at hok
        simp [Except.isOk, Except.toBool] at hok
  · have herr : cancelRide s rideId userId now
        = (Except.error (ApiErr.conflict "Ride cannot be cancelled"), s) := by
      rw [hbody, if_pos (by tauto)]
    refine ⟨?_, ?_, ?_, ?_⟩
    · rw [herr]
      exact iff_of_false (fun h => nomatch h) (fun h => absurd h.1 hst)
    · intro _
      exact herr
    · intro h
      exact absurd h hst
    · intro hok
      rw [herr] at hok
      simp [Except.isOk, Except.toBool] at hok

/-- Concrete instance of `cancel_guard_characterization`: the assigned
driver cancels an accepted ride. -/
theorem cancel_guard_characterization_check :
    ({ users := [], rides := [("r1", fixtureAcceptedRide)] } : Storage).getRide "r1"
        = some fixtureAcceptedRide ∧
    (cancelRide { users := [], rides := [("r1", fixtureAcceptedRide)] }
        "r1" (some "d1") 5).1.isOk = true :=
  ⟨rfl,
   ((cancel_guard_characterization
       { users := [], rides := [("r1", fixtureAcceptedRide)] }
       "r1" (some "d1") 5 fixtureAcceptedRide rfl).1).mpr
     ⟨Or.inr rfl, Or.inr rfl⟩⟩

/-- C4: a driver-role user who is the assigned driver of some stored ride
with an active status (`waiting`/`accepted`/`in_progress`) cannot accept
any existing second ride: the call fails with a Conflict error (the
one-active-ride guard, or the status guard if the target is not waiting)
and the store — in particular the target ride's driver assignment — is
unchanged. -/
theorem accept_with_active_ride_conflict (s : Storage) (rideId d : String)
    (rand : ℚ × ℚ) (u : User) (hu : s.getUser d = some u)
    (hrole : u.role = Role.driver) (k0 : String) (r0 : Ride)
    (h0 : (k0, r0) ∈ s.rides) (hact : isActiveStatus r0.status = true)
    (hdrv : r0.driverId = some d) (rT : Ride) (hT : s.getRide rideId = some rT) :
    ∃ msg, acceptRide s rideId d rand = (Except.error (ApiErr.conflict msg), s) := by
  by_cases hw : rT.status = RideStatus.waiting
  · exact ⟨"You already have an active ride",
      acceptRide_eq_of_active s rideId d rand rT hT hw
        (getActiveRide_isSome_of_driver s d u hu hrole k0 r0 h0 hact hdrv)⟩
  · exact ⟨"Ride is no longer available",
      acceptRide_eq_of_nonwaiting s rideId d rand rT hT hw⟩

/-- Concrete instance of `accept_with_active_ride_conflict`: driver "d1",
holder of the accepted ride "r0", tries to accept the waiting ride "r1". -/
theorem accept_with_active_ride_conflict_check :
    (fixtureStorage4.getUser "d1" = some fixtureDriver ∧
     fixtureDriver.role = Role.driver ∧
     ("r0", fixtureActiveRide) ∈ fixtureStorage4.rides ∧
     isActiveStatus fixtureActiveRide.status = true ∧
     fixtureActiveRide.driverId = some "d1" ∧
     fixtureStorage4.getRide "r1" = some fixtureWaitingRide) ∧
    (∃ msg, acceptRide fixtureStorage4 "r1" "d1" (0, 0)
        = (Except.error (ApiErr.conflict msg), fixtureStorage4)) :=
  ⟨⟨rfl, rfl, List.mem_cons_self _ _, rfl, rfl, rfl⟩,
   accept_with_active_ride_conflict fixtureStorage4 "r1" "d1" (0, 0)
     fixtureDriver rfl rfl "r0" fixtureActiveRide (List.mem_cons_self _ _)
     rfl rfl fixtureWaitingRide rfl⟩

theorem updateRide_users (s : Storage) (id : String) (u : RideUpdates) :
    (s.updateRide id u).2.users = s.users := by
  unfold Storage.updateRide
  cases getKey s.rides id <;> rfl

theorem getUser_updateRide (s : Storage) (id : String) (u : RideUpdates)
    (uid : String) : (s.updateRide id u).2.getUser uid = s.getUser uid := by
  unfold Storage.getUser
  rw [updateRide_users]

theorem getUser_updateUser_self (s : Storage) (id : String) (upd : UserUpdates)
    (u : User) (hu : s.getUser id = some u) :
    (s.updateUser id upd).2.getUser id = some (applyUserUpdates u upd) := by
  unfold Storage.getUser at *
  unfold Storage.updateUser
  rw [hu]
  dsimp only
  exact getKey_setKey_self s.users id (applyUserUpdates u upd)

theorem completeRatingStep_customer (s : Storage) (ride : Ride)
    (rating : Option ℚ) (fb : Option String) (u₀ : RideUpdates)
    (did : String) (drv : User) (hdid : ride.driverId = some did)
    (hdrv : s.getUser did = some drv) (htr : ratingTruthy rating = true) :
    completeRatingStep s ride Role.customer rating fb u₀ =
      ({ u₀ with driverRating := rating, customerFeedback := some (orNull fb) },
       (s.updateUser did (ratedUserUpdate drv (rating.getD 0))).2) := by
  unfold completeRatingStep
  rw [if_pos ⟨rfl, htr⟩, hdid]
  dsimp only
  rw [hdrv]

theorem completeRatingStep_driver (s : Storage) (ride : Ride)
    (rating : Option ℚ) (fb : Option String) (u₀ : RideUpdates)
    (cust : User) (hcust : s.getUser ride.customerId = some cust)
    (htr : ratingTruthy rating = true) :
    completeRatingStep s ride Role.driver rating fb u₀ =
      ({ u₀ with customerRating := rating, driverFeedback := some (orNull fb) },
       (s.updateUser ride.customerId (ratedUserUpdate cust (rating.getD 0))).2) := by
  unfold completeRatingStep
  rw [if_neg (by simp), if_pos ⟨rfl, htr⟩, hcust]

/-- C5: a validated rating `q` (1 ≤ q ≤ 5 per the request schema)
submitted through complete updates the counterparty: new average
`Math.round(((oldAvg*oldCount + q)/(oldCount+1))*10)/10`, completed-ride
count `+1`, reputation `min 100 (old+2)` — which never decreases, never
exceeds 100, and strictly increases while below 100.  Both directions
(customer rates driver, driver rates customer) are covered. -/
theorem rating_update_formula (s : Storage) (rideId : String) (q : ℚ)
    (fb : Option String) (now : Nat) (r : Ride)
    (hr : s.getRide rideId = some r) (h1 : 1 ≤ q) :
    (∀ did drv, r.driverId = some did → s.getUser did = some drv →
       drv.reputation ≤ 100 →
       ∃ drv', (completeRide s rideId Role.customer (some q) fb now).2.getUser did
           = some drv' ∧
         drv'.avgRating = roundTo1
           ((drv.avgRating * drv.completedRides + q) / (drv.completedRides + 1)) ∧
         drv'.completedRides = drv.completedRides + 1 ∧
         drv'.reputation = min 100 (drv.reputation + 2) ∧
         drv.reputation ≤ drv'.reputation ∧ drv'.reputation ≤ 100 ∧
         (drv.reputation < 100 → drv.reputation < drv'.reputation)) ∧
    (∀ cust, s.getUser r.customerId = some cust → cust.reputation ≤ 100 →
       ∃ cust', (completeRide s rideId Role.driver (some q) fb now).2.getUser
           r.customerId = some cust' ∧
         cust'.avgRating = roundTo1
           ((cust.avgRating * cust.completedRides + q) / (cust.completedRides + 1)) ∧
         cust'.completedRides = cust.completedRides + 1 ∧
         cust'.reputation = min 100 (cust.reputation + 2) ∧
         cust.reputation ≤ cust'.reputation ∧ cust'.reputation ≤ 100 ∧
         (cust.reputation < 100 → cust.reputation < cust'.reputation)) := by
  have hq0 : q ≠ 0 := by
    intro h0
    rw [h0] at h1
    norm_num at h1
  have htr : ratingTruthy (some q) = true := by
    simp [ratingTruthy, hq0]
  constructor
  · intro did drv hdid hdrv hrep
    refine ⟨applyUserUpdates drv (ratedUserUpdate drv q), ?_, rfl, rfl, rfl, ?_, ?_, ?_⟩
    · unfold completeRide
      rw [hr]
      dsimp only
      rw [completeRatingStep_customer s r (some q) fb _ did drv hdid hdrv htr]
      rw [respond_snd]
      dsimp only
      rw [getUser_updateRide]
      exact getUser_updateUser_self s did _ drv hdrv
    · exact le_min hrep (by linarith)
    · exact min_le_left _ _
    · intro hlt
      exact lt_min hlt (by linarith)
  · intro cust hcust hrep
    refine ⟨applyUserUpdates cust (ratedUserUpdate cust q), ?_, rfl, rfl, rfl, ?_, ?_, ?_⟩
    · unfold completeRide
      rw [hr]
      dsimp only
      rw [completeRatingStep_driver s r (some q) fb _ cust hcust htr]
      rw [respond_snd]
      dsimp only
      rw [getUser_updateRide]
      exact getUser_updateUser_self s r.customerId _ cust hcust
    · exact le_min hrep (by linarith)
    · exact min_le_left _ _
    · intro hlt
      exact lt_min hlt (by linarith)

/-- Concrete instance of `rating_update_formula`, matching the spec's
worked example: a driver with avgRating 4.0 and completedRides 10 receives
rating 5 and ends with avgRating 4.1, completedRides 11 (and reputation
80 → 82). -/
theorem rating_update_formula_check :
    (fixtureStorage4.getRide "r0" = some fixtureActiveRide ∧ (1 : ℚ) ≤ 5 ∧
     fixtureActiveRide.driverId = some "d1" ∧
     fixtureStorage4.getUser "d1" = some fixtureDriver ∧
     fixtureDriver.avgRating = 4 ∧ fixtureDriver.completedRides = 10 ∧
     fixtureDriver.reputation ≤ 100) ∧
    ∃ drv', (completeRide fixtureStorage4 "r0" Role.customer (some 5) none 9).2.getUser
        "d1" = some drv' ∧
      drv'.avgRating = 41/10 ∧ drv'.completedRides = 11 ∧ drv'.reputation = 82 := by
  have h := (rating_update_formula fixtureStorage4 "r0" 5 none 9 fixtureActiveRide
    rfl (by norm_num)).1 "d1" fixtureDriver rfl rfl
    (by rw [show fixtureDriver.reputation = (80 : ℚ) from rfl]; norm_num)
  obtain ⟨drv', hget, havg, hcnt, hrep, -, -, -⟩ := h
  refine ⟨⟨rfl, by norm_num, rfl, rfl, rfl, rfl,
    by rw [show fixtureDriver.reputation = (80 : ℚ) from rfl]; norm_num⟩,
    drv', hget, ?_, ?_, ?_⟩
  · rw [havg, show fixtureDriver.avgRating = (4 : ℚ) from rfl,
      show fixtureDriver.completedRides = (10 : ℚ) from rfl]
    norm_num [roundTo1, jsRound]
  · rw [hcnt, show fixtureDriver.completedRides = (10 : ℚ) from rfl]
    norm_num
  · rw [hrep, show fixtureDriver.reputation = (80 : ℚ) from rfl, min_def,
      if_neg (by norm_num)]
    norm_num

theorem completeRatingStep_keeps (s : Storage) (ride : Ride) (cb : Role)
    (rating : Option ℚ) (fb : Option String) (u₀ : RideUpdates) :
    (completeRatingStep s ride cb rating fb u₀).1.completedAt = u₀.completedAt ∧
    (completeRatingStep s ride cb rating fb u₀).1.actualFare = u₀.actualFare := by
  unfold completeRatingStep
  split
  · exact ⟨rfl, rfl⟩
  · split
    · exact ⟨rfl, rfl⟩
    · exact ⟨rfl, rfl⟩

theorem completeRatingStep_noRating (s : Storage) (ride : Ride) (cb : Role)
    (fb : Option String) (u₀ : RideUpdates) :
    completeRatingStep s ride cb none fb u₀ = (u₀, s) := by
  unfold completeRatingStep
  rw [if_neg (by simp [ratingTruthy]), if_neg (by simp [ratingTruthy])]

theorem completeStatusUpdates_of_not_inprogress (ride : Ride) (now : Nat)
    (h : ride.status ≠ RideStatus.in_progress) :
    completeStatusUpdates ride now = {} := by
  unfold completeStatusUpdates
  rw [if_neg (fun hh => h hh.1)]

theorem completeStatusUpdates_of_inprogress (ride : Ride) (now : Nat)
    (h1 : ride.status = RideStatus.in_progress) (h2 : ride.completedAt = none) :
    completeStatusUpdates ride now =
      { status := some RideStatus.completed
        completedAt := some now
        actualFare := some ride.estimatedFare } := by
  unfold completeStatusUpdates
  rw [if_pos ⟨h1, h2⟩]

/-- The complete handler on an existing ride always answers 200 with the
merged ride and stores it. -/
theorem completeRide_eq (s : Storage) (rideId : String) (cb : Role)
    (rating : Option ℚ) (fb : Option String) (now : Nat) (r : Ride)
    (hr : s.getRide rideId = some r) :
    completeRide s rideId cb rating fb now
      = (Except.ok (applyRideUpdates r
           (completeRatingStep s r cb rating fb (completeStatusUpdates r now)).1),
         { (completeRatingStep s r cb rating fb (completeStatusUpdates r now)).2 with
           rides := setKey
             (completeRatingStep s r cb rating fb (completeStatusUpdates r now)).2.rides
             rideId
             (applyRideUpdates r
               (completeRatingStep s r cb rating fb (completeStatusUpdates r now)).1) }) := by
  unfold completeRide
  rw [hr]
  dsimp only
  rw [updateRide_of_getRide _ rideId _ r
    (by unfold Storage.getRide; rw [completeRatingStep_rides]; exact hr)]
  exact respond_of_some _ _ rfl

/-- On a ride that is not `in_progress`, complete succeeds and keeps
status, completedAt and actualFare unchanged. -/
theorem completeRide_not_inprogress_spec (s : Storage) (rideId : String)
    (cb : Role) (rating : Option ℚ) (fb : Option String) (now : Nat) (r : Ride)
    (hr : s.getRide rideId = some r) (hst : r.status ≠ RideStatus.in_progress) :
    ∃ r', (completeRide s rideId cb rating fb now).1 = Except.ok r' ∧
      (completeRide s rideId cb rating fb now).2.getRide rideId = some r' ∧
      r'.status = r.status ∧ r'.completedAt = r.completedAt ∧
      r'.actualFare = r.actualFare := by
  have h0 : completeStatusUpdates r now = {} :=
    completeStatusUpdates_of_not_inprogress r now hst
  have hres := completeRide_eq s rideId cb rating fb now r hr
  have hs1 : (completeRatingStep s r cb rating fb
      (completeStatusUpdates r now)).1.status = none := by
    rw [(completeRatingStep_status s r cb rating fb _).1, h0]
  have hc1 : (completeRatingStep s r cb rating fb
      (completeStatusUpdates r now)).1.completedAt = none := by
    rw [(completeRatingStep_keeps s r cb rating fb _).1, h0]
  have hf1 : (completeRatingStep s r cb rating fb
      (completeStatusUpdates r now)).1.actualFare = none := by
    rw [(completeRatingStep_keeps s r cb rating fb _).2, h0]
  refine ⟨applyRideUpdates r
      (completeRatingStep s r cb rating fb (completeStatusUpdates r now)).1,
      ?_, ?_, ?_, ?_, ?_⟩
  · rw [hres]
  · rw [hres]
    unfold Storage.getRide
    exact getKey_setKey_self ..
  · simp [applyRideUpdates, hs1]
  · simp [applyRideUpdates, hc1]
  · simp [applyRideUpdates, hf1]

/-- A truthy rating submitted by the customer updates the assigned
driver's user record with the rating formula. -/
theorem completeRide_rating_customer (s : Storage) (rideId : String)
    (fb : Option String) (now : Nat) (r : Ride) (q : ℚ) (did : String)
    (drv : User) (hr : s.getRide rideId = some r) (hq0 : q ≠ 0)
    (hdid : r.driverId = some did) (hdrv : s.getUser did = some drv) :
    (completeRide s rideId Role.customer (some q) fb now).2.getUser did
      = some (applyUserUpdates drv (ratedUserUpdate drv q)) := by
  unfold completeRide
  rw [hr]
  dsimp only
  rw [completeRatingStep_customer s r (some q) fb _ did drv hdid hdrv
    (by simp [ratingTruthy, hq0])]
  rw [respond_snd]
  dsimp only
  rw [getUser_updateRide]
  exact getUser_updateUser_self s did _ drv hdrv

/-- A truthy rating submitted by the driver updates the customer's user
record with the rating formula. -/
theorem completeRide_rating_driver (s : Storage) (rideId : String)
    (fb : Option String) (now : Nat) (r : Ride) (q : ℚ) (cust : User)
    (hr : s.getRide rideId = some r) (hq0 : q ≠ 0)
    (hcust : s.getUser r.customerId = some cust) :
    (completeRide s rideId Role.driver (some q) fb now).2.getUser r.customerId
      = some (applyUserUpdates cust (ratedUserUpdate cust q)) := by
  unfold completeRide
  rw [hr]
  dsimp only
  rw [completeRatingStep_driver s r (some q) fb _ cust hcust
    (by simp [ratingTruthy, hq0])]
  rw [respond_snd]
  dsimp only
  rw [getUser_updateRide]
  exact getUser_updateUser_self s r.customerId _ cust hcust

/-- C9: for an existing ride in any status other than `in_progress`
(`waiting`, `accepted`, `completed`, `cancelled`), the complete handler
never fails, whoever `completedBy` names: it answers 200 with the stored
ride, whose status/completedAt/actualFare are unchanged; and a rating in
the call still updates the counterparty (average per formula, count +1,
reputation +2 capped) whenever that counterparty exists in the store. -/
theorem complete_never_fails (s : Storage) (rideId : String) (cb : Role)
    (rating : Option ℚ) (fb : Option String) (now : Nat) (r : Ride)
    (hr : s.getRide rideId = some r) (hst : r.status ≠ RideStatus.in_progress) :
    (∃ r', (completeRide s rideId cb rating fb now).1 = Except.ok r' ∧
       (completeRide s rideId cb rating fb now).2.getRide rideId = some r' ∧
       r'.status = r.status ∧ r'.completedAt = r.completedAt ∧
       r'.actualFare = r.actualFare) ∧
    (∀ q did drv, rating = some q → q ≠ 0 → cb = Role.customer →
       r.driverId = some did → s.getUser did = some drv →
       (completeRide s rideId cb rating fb now).2.getUser did
         = some (applyUserUpdates drv (ratedUserUpdate drv q))) ∧
    (∀ q cust, rating = some q → q ≠ 0 → cb = Role.driver →
       s.getUser r.customerId = some cust →
       (completeRide s rideId cb rating fb now).2.getUser r.customerId
         = some (applyUserUpdates cust (ratedUserUpdate cust q))) := by
  refine ⟨completeRide_not_inprogress_spec s rideId cb rating fb now r hr hst,
    ?_, ?_⟩
  · intro q did drv hq hq0 hcb hdid hdrv
    subst hq
    subst hcb
    exact completeRide_rating_customer s rideId fb now r q did drv hr hq0 hdid hdrv
  · intro q cust hq hq0 hcb hcust
    subst hq
    subst hcb
    exact completeRide_rating_driver s rideId fb now r q cust hr hq0 hcust

/-- Concrete instance of `complete_never_fails`: a rating-only complete
call by the driver on an already cancelled ride succeeds, leaves the
status `cancelled`, and still bumps the customer's counters. -/
theorem complete_never_fails_check :
    (fixtureStorage9.getRide "r1" = some fixtureCancelledRide ∧
     fixtureCancelledRide.status ≠ RideStatus.in_progress) ∧
    (∃ r', (completeRide fixtureStorage9 "r1" Role.driver (some 4) none 7).1
         = Except.ok r' ∧
       (completeRide fixtureStorage9 "r1" Role.driver (some 4) none 7).2.getRide "r1"
         = some r' ∧
       r'.status = fixtureCancelledRide.status ∧
       r'.completedAt = fixtureCancelledRide.completedAt ∧
       r'.actualFare = fixtureCancelledRide.actualFare) ∧
    (completeRide fixtureStorage9 "r1" Role.driver (some 4) none 7).2.getUser "c1"
      = some (applyUserUpdates fixtureCustomer (ratedUserUpdate fixtureCustomer 4)) := by
  have h := complete_never_fails fixtureStorage9 "r1" Role.driver (some 4) none 7
    fixtureCancelledRide rfl (by decide)
  exact ⟨⟨rfl, by decide⟩, h.1, h.2.2 4 fixtureCustomer rfl (by norm_num) rfl rfl⟩

/-- C2: `complete` is idempotent on the status half.  From an
`in_progress` ride with no `completedAt`, a first call — whoever submits
it and whether or not it carries a rating — sets status `completed`,
`completedAt = t1`, `actualFare = estimatedFare`; any second call, by
either role and with or without a rating, never transitions again:
status stays `completed` and `completedAt` stays `t1`.  And when the one
rating of the scenario arrives in the second call (the first call being
rating-free, hence touching no user), the rated party's completedRides
is incremented exactly once, in both directions: the customer's rating
bumps the driver, the driver's rating bumps the customer. -/
theorem complete_idempotent_on_status (s : Storage) (rideId : String)
    (by1 by2 : Role) (fb1 fb2 : Option String) (t1 t2 : Nat)
    (rt1 rt2 : Option ℚ) (q : ℚ) (r : Ride)
    (hr : s.getRide rideId = some r) (hst : r.status = RideStatus.in_progress)
    (hca : r.completedAt = none) (hq : 1 ≤ q) :
    ∃ r1, (completeRide s rideId by1 rt1 fb1 t1).1 = Except.ok r1 ∧
      (completeRide s rideId by1 rt1 fb1 t1).2.getRide rideId = some r1 ∧
      r1.status = RideStatus.completed ∧ r1.completedAt = some t1 ∧
      r1.actualFare = some r.estimatedFare ∧
      (∃ r2, (completeRide (completeRide s rideId by1 rt1 fb1 t1).2 rideId
            by2 rt2 fb2 t2).1 = Except.ok r2 ∧
        r2.status = RideStatus.completed ∧ r2.completedAt = some t1) ∧
      (rt1 = none →
        (completeRide s rideId by1 rt1 fb1 t1).2.users = s.users ∧
        (∀ did drv, by2 = Role.customer → r.driverId = some did →
          s.getUser did = some drv →
          (completeRide (completeRide s rideId by1 rt1 fb1 t1).2 rideId
              by2 (some q) fb2 t2).2.getUser did
            = some (applyUserUpdates drv (ratedUserUpdate drv q)) ∧
          (applyUserUpdates drv (ratedUserUpdate drv q)).completedRides
            = drv.completedRides + 1) ∧
        (∀ cust, by2 = Role.driver → s.getUser r.customerId = some cust →
          (completeRide (completeRide s rideId by1 rt1 fb1 t1).2 rideId
              by2 (some q) fb2 t2).2.getUser r.customerId
            = some (applyUserUpdates cust (ratedUserUpdate cust q)) ∧
          (applyUserUpdates cust (ratedUserUpdate cust q)).completedRides
            = cust.completedRides + 1)) := by
  have hq0 : q ≠ 0 := by
    intro h0
    rw [h0] at hq
    norm_num at hq
  have h0 := completeStatusUpdates_of_inprogress r t1 hst hca
  have hres1 := completeRide_eq s rideId by1 rt1 fb1 t1 r hr
  have hs1 : (completeRatingStep s r by1 rt1 fb1
      (completeStatusUpdates r t1)).1.status = some RideStatus.completed := by
    rw [(completeRatingStep_status s r by1 rt1 fb1 _).1, h0]
  have hc1 : (completeRatingStep s r by1 rt1 fb1
      (completeStatusUpdates r t1)).1.completedAt = some t1 := by
    rw [(completeRatingStep_keeps s r by1 rt1 fb1 _).1, h0]
  have hf1 : (completeRatingStep s r by1 rt1 fb1
      (completeStatusUpdates r t1)).1.actualFare = some r.estimatedFare := by
    rw [(completeRatingStep_keeps s r by1 rt1 fb1 _).2, h0]
  have hget1 : (completeRide s rideId by1 rt1 fb1 t1).2.getRide rideId
      = some (applyRideUpdates r
        (completeRatingStep s r by1 rt1 fb1 (completeStatusUpdates r t1)).1) := by
    rw [hres1]
    unfold Storage.getRide
    exact getKey_setKey_self ..
  have hr1status : (applyRideUpdates r
      (completeRatingStep s r by1 rt1 fb1
        (completeStatusUpdates r t1)).1).status = RideStatus.completed := by
    simp [applyRideUpdates, hs1]
  have hr1completedAt : (applyRideUpdates r
      (completeRatingStep s r by1 rt1 fb1
        (completeStatusUpdates r t1)).1).completedAt = some t1 := by
    simp [applyRideUpdates, hc1]
  have hr1fare : (applyRideUpdates r
      (completeRatingStep s r by1 rt1 fb1
        (completeStatusUpdates r t1)).1).actualFare = some r.estimatedFare := by
    simp [applyRideUpdates, hf1]
  refine ⟨applyRideUpdates r
      (completeRatingStep s r by1 rt1 fb1 (completeStatusUpdates r t1)).1,
    by rw [hres1], hget1, hr1status, hr1completedAt, hr1fare, ?_, ?_⟩
  · have hst1 : (applyRideUpdates r
        (completeRatingStep s r by1 rt1 fb1
          (completeStatusUpdates r t1)).1).status ≠ RideStatus.in_progress := by
      rw [hr1status]
      decide
    obtain ⟨r2, h1, -, h3, h4, -⟩ := completeRide_not_inprogress_spec
      (completeRide s rideId by1 rt1 fb1 t1).2 rideId by2 rt2 fb2 t2 _ hget1 hst1
    refine ⟨r2, h1, ?_, ?_⟩
    · rw [h3, hr1status]
    · rw [h4, hr1completedAt]
  · intro hrt1
    subst hrt1
    have hstep := completeRatingStep_noRating s r by1 fb1 (completeStatusUpdates r t1)
    have husers : (completeRide s rideId by1 none fb1 t1).2.users = s.users := by
      rw [hres1, hstep]
    refine ⟨husers, ?_, ?_⟩
    · intro did drv hby2 hdid hdrv
      subst hby2
      have hd : (completeRatingStep s r by1 none fb1
          (completeStatusUpdates r t1)).1.driverId = none := by
        rw [(completeRatingStep_status s r by1 none fb1 _).2,
          completeStatusUpdates_driverId]
      have hdid1 : (applyRideUpdates r
          (completeRatingStep s r by1 none fb1
            (completeStatusUpdates r t1)).1).driverId = some did := by
        simp [applyRideUpdates, hd, hdid]
      have hdrv1 : (completeRide s rideId by1 none fb1 t1).2.getUser did
          = some drv := by
        unfold Storage.getUser
        rw [husers]
        exact hdrv
      exact ⟨completeRide_rating_customer (completeRide s rideId by1 none fb1 t1).2
        rideId fb2 t2 _ q did drv hget1 hq0 hdid1 hdrv1, rfl⟩
    · intro cust hby2 hcust
      subst hby2
      have hcust1 : (completeRide s rideId by1 none fb1 t1).2.getUser
          (applyRideUpdates r
            (completeRatingStep s r by1 none fb1
              (completeStatusUpdates r t1)).1).customerId = some cust := by
        unfold Storage.getUser
        rw [husers]
        exact hcust
      exact ⟨completeRide_rating_driver (completeRide s rideId by1 none fb1 t1).2
        rideId fb2 t2 (applyRideUpdates r
          (completeRatingStep s r by1 none fb1 (completeStatusUpdates r t1)).1)
        q cust hget1 hq0 hcust1, rfl⟩

/-- Concrete instance of `complete_idempotent_on_status`: the driver
completes the in-progress ride without a rating, then the customer sends
a rating-only call; the driver's completedRides count rises exactly once
(10 to 11). -/
theorem complete_idempotent_on_status_check :
    (fixtureStorage2.getRide "r1" = some fixtureInProgressRide ∧
     fixtureInProgressRide.status = RideStatus.in_progress ∧
     fixtureInProgressRide.completedAt = none ∧ (1 : ℚ) ≤ 5) ∧
    (∃ r1, (completeRide fixtureStorage2 "r1" Role.driver none none 4).1
        = Except.ok r1 ∧
      (completeRide fixtureStorage2 "r1" Role.driver none none 4).2.getRide "r1"
        = some r1 ∧
      r1.status = RideStatus.completed ∧ r1.completedAt = some 4 ∧
      r1.actualFare = some fixtureInProgressRide.estimatedFare) ∧
    (completeRide (completeRide fixtureStorage2 "r1" Role.driver none none 4).2
        "r1" Role.customer (some 5) none 6).2.getUser "d1"
      = some (applyUserUpdates fixtureDriver (ratedUserUpdate fixtureDriver 5)) ∧
    (applyUserUpdates fixtureDriver (ratedUserUpdate fixtureDriver 5)).completedRides
      = fixtureDriver.completedRides + 1 := by
  have h := complete_idempotent_on_status fixtureStorage2
    "r1" Role.driver Role.customer none none 4 6 none none 5 fixtureInProgressRide
    rfl rfl rfl (by norm_num)
  obtain ⟨r1, h1, h2, h3, h4, h5, -, hrest⟩ := h
  obtain ⟨-, hcust, -⟩ := hrest rfl
  obtain ⟨hc1, hc2⟩ := hcust "d1" fixtureDriver rfl rfl rfl
  exact ⟨⟨rfl, rfl, rfl, by norm_num⟩, ⟨r1, h1, h2, h3, h4, h5⟩, hc1, hc2⟩

/-- C10: accept succeeds for a driver id that exists nowhere in the user
store — `getActiveRide` of an unknown user is `undefined`, so the
one-active-ride guard passes, and the waiting ride is assigned the
nonexistent driver with status `accepted`. -/
theorem accept_unknown_driver_succeeds :
    (({ users := [], rides := [("r1", fixtureWaitingRide)] } : Storage)).getUser "ghost"
        = none ∧
    (({ users := [], rides := [("r1", fixtureWaitingRide)] } : Storage)).getActiveRide "ghost"
        = none ∧
    (acceptRide { users := [], rides := [("r1", fixtureWaitingRide)] } "r1" "ghost"
        (0, 0)).1.isOk = true ∧
    (((acceptRide { users := [], rides := [("r1", fixtureWaitingRide)] } "r1" "ghost"
        (0, 0)).2.getRide "r1").map (fun r => (r.status, r.driverId)))
      = some (RideStatus.accepted, some "ghost") := by
  refine ⟨rfl, rfl, ?_, ?_⟩ <;> decide

theorem getKey_delKey_self {κ α : Type} [DecidableEq κ] (l : List (κ × α)) (k : κ) :
    getKey (delKey l k) k = none := by
  induction l with
  | nil => rfl
  | cons hd tl ih =>
    obtain ⟨k₀, v₀⟩ := hd
    by_cases h₀ : k₀ = k
    · subst h₀
      rw [show delKey ((k₀, v₀) :: tl) k₀ = delKey tl k₀ from by simp [delKey]]
      exact ih
    · rw [show delKey ((k₀, v₀) :: tl) k = (k₀, v₀) :: delKey tl k from by
        simp [delKey, h₀]]
      rw [show getKey ((k₀, v₀) :: delKey tl k) k = getKey (delKey tl k) k from by
        simp [getKey, h₀]]
      exact ih

theorem getKey_delKey_ne {κ α : Type} [DecidableEq κ] (l : List (κ × α)) (k k' : κ)
    (h : k ≠ k') : getKey (delKey l k) k' = getKey l k' := by
  induction l with
  | nil => rfl
  | cons hd tl ih =>
    obtain ⟨k₀, v₀⟩ := hd
    by_cases h₀ : k₀ = k
    · subst h₀
      rw [show delKey ((k₀, v₀) :: tl) k₀ = delKey tl k₀ from by simp [delKey]]
      rw [show getKey ((k₀, v₀) :: tl) k' = getKey tl k' from by simp [getKey, h]]
      exact ih
    · rw [show delKey ((k₀, v₀) :: tl) k = (k₀, v₀) :: delKey tl k from by
        simp [delKey, h₀]]
      by_cases h₁ : k₀ = k'
      · subst h₁
        rw [show getKey ((k₀, v₀) :: delKey tl k) k₀ = some v₀ from by simp [getKey]]
        rw [show getKey ((k₀, v₀) :: tl) k₀ = some v₀ from by simp [getKey]]
      · rw [show getKey ((k₀, v₀) :: delKey tl k) k' = getKey (delKey tl k) k' from by
          simp [getKey, h₁]]
        rw [show getKey ((k₀, v₀) :: tl) k' = getKey tl k' from by simp [getKey, h₁]]
        exact ih

theorem mem_delKey_ne {κ α : Type} [DecidableEq κ] (l : List (κ × α)) (k : κ)
    (e : κ × α) : e ∈ delKey l k → e ∈ l ∧ e.1 ≠ k := by
  induction l with
  | nil => intro he; simp [delKey] at he
  | cons hd tl ih =>
    intro he
    obtain ⟨k₀, v₀⟩ := hd
    by_cases h₀ : k₀ = k
    · subst h₀
      rw [show delKey ((k₀, v₀) :: tl) k₀ = delKey tl k₀ from by simp [delKey]] at he
      exact ⟨List.mem_cons_of_mem _ (ih he).1, (ih he).2⟩
    · rw [show delKey ((k₀, v₀) :: tl) k = (k₀, v₀) :: delKey tl k from by
        simp [delKey, h₀]] at he
      rcases List.mem_cons.mp he with h1 | h1
      · refine ⟨h1 ▸ List.mem_cons_self _ _, ?_⟩
        rw [h1]
        exact h₀
      · exact ⟨List.mem_cons_of_mem _ (ih h1).1, (ih h1).2⟩

theorem mem_getKey_isSome {κ α : Type} [DecidableEq κ] (l : List (κ × α))
    (e : κ × α) (he : e ∈ l) : (getKey l e.1).isSome = true := by
  induction l with
  | nil => simp at he
  | cons hd tl ih =>
    obtain ⟨k₀, v₀⟩ := hd
    rcases List.mem_cons.mp he with h1 | h1
    · rw [h1]
      simp [getKey]
    · by_cases h₀ : k₀ = e.1
      · rw [show getKey ((k₀, v₀) :: tl) e.1 = some v₀ from by simp [getKey, h₀]]
        rfl
      · rw [show getKey ((k₀, v₀) :: tl) e.1 = getKey tl e.1 from by
          simp [getKey, h₀]]
        exact ih h1

theorem keys_nodup_setKey {κ α : Type} [DecidableEq κ] (l : List (κ × α)) (k : κ)
    (v : α) (h : (l.map Prod.fst).Nodup) : ((setKey l k v).map Prod.fst).Nodup := by
  induction l with
  | nil => simp [setKey]
  | cons hd tl ih =>
    obtain ⟨k₀, v₀⟩ := hd
    simp only [List.map_cons, List.nodup_cons] at h
    by_cases h₀ : k₀ = k
    · subst h₀
      rw [show setKey ((k₀, v₀) :: tl) k₀ v = (k₀, v) :: tl from by simp [setKey]]
      simp only [List.map_cons, List.nodup_cons]
      exact h
    · rw [show setKey ((k₀, v₀) :: tl) k v = (k₀, v₀) :: setKey tl k v from by
        simp [setKey, h₀]]
      simp only [List.map_cons, List.nodup_cons]
      refine ⟨?_, ih h.2⟩
      intro hx
      rcases List.mem_map.mp hx with ⟨e, he, hfst⟩
      rcases mem_setKey tl k v e he with h1 | h1
      · rw [h1] at hfst
        exact h₀ hfst.symm
      · exact h.1 (List.mem_map.mpr ⟨e, h1, hfst⟩)

theorem keys_nodup_delKey {κ α : Type} [DecidableEq κ] (l : List (κ × α)) (k : κ)
    (h : (l.map Prod.fst).Nodup) : ((delKey l k).map Prod.fst).Nodup := by
  induction l with
  | nil => simp [delKey]
  | cons hd tl ih =>
    obtain ⟨k₀, v₀⟩ := hd
    simp only [List.map_cons, List.nodup_cons] at h
    by_cases h₀ : k₀ = k
    · subst h₀
      rw [show delKey ((k₀, v₀) :: tl) k₀ = delKey tl k₀ from by simp [delKey]]
      exact ih h.2
    · rw [show delKey ((k₀, v₀) :: tl) k = (k₀, v₀) :: delKey tl k from by
        simp [delKey, h₀]]
      simp only [List.map_cons, List.nodup_cons]
      refine ⟨?_, ih h.2⟩
      intro hx
      rcases List.mem_map.mp hx with ⟨e, he, hfst⟩
      exact h.1 (List.mem_map.mpr ⟨e, (mem_delKey_ne tl k e he).1, hfst⟩)

theorem mem_setKey_keysNodup {κ α : Type} [DecidableEq κ] (l : List (κ × α))
    (k : κ) (v : α) (e : κ × α) (hnd : (l.map Prod.fst).Nodup) :
    e ∈ setKey l k v → e = (k, v) ∨ (e ∈ l ∧ e.1 ≠ k) := by
  induction l with
  | nil =>
    intro he
    simp only [setKey, List.mem_singleton] at he
    exact Or.inl he
  | cons hd tl ih =>
    intro he
    obtain ⟨k₀, v₀⟩ := hd
    simp only [List.map_cons, List.nodup_cons] at hnd
    by_cases h₀ : k₀ = k
    · subst h₀
      rw [show setKey ((k₀, v₀) :: tl) k₀ v = (k₀, v) :: tl from by simp [setKey]] at he
      rcases List.mem_cons.mp he with h1 | h1
      · exact Or.inl h1
      · refine Or.inr ⟨List.mem_cons_of_mem _ h1, ?_⟩
        intro hk
        exact hnd.1 (List.mem_map.mpr ⟨e, h1, hk⟩)
    · rw [show setKey ((k₀, v₀) :: tl) k v = (k₀, v₀) :: setKey tl k v from by
        simp [setKey, h₀]] at he
      rcases List.mem_cons.mp he with h1 | h1
      · refine Or.inr ⟨h1 ▸ List.mem_cons_self _ _, ?_⟩
        rw [h1]
        exact h₀
      · rcases ih hnd.2 h1 with h2 | h2
        · exact Or.inl h2
        · exact Or.inr ⟨List.mem_cons_of_mem _ h2.1, h2.2⟩

theorem mem_removeSub (subs : List (String × List Nat)) (c : Nat) (prev : String)
    (e : String × List Nat) (hkeys : (subs.map Prod.fst).Nodup) :
    e ∈ removeSub subs c prev →
      e ∈ subs ∨ ∃ set, getKey subs prev = some set ∧ e = (prev, set.erase c) := by
  intro he
  unfold removeSub at he
  cases hget : getKey subs prev with
  | none =>
    rw [hget] at he
    exact Or.inl he
  | some set =>
    rw [hget] at he
    dsimp only at he
    by_cases hemp : set.erase c = []
    · rw [if_pos hemp] at he
      exact Or.inl (mem_delKey subs prev e he)
    · rw [if_neg hemp] at he
      rcases mem_setKey_keysNodup subs prev _ e hkeys he with h1 | h1
      · exact Or.inr ⟨set, rfl, h1⟩
      · exact Or.inl h1.1

theorem goodEntries_removeSub (subs : List (String × List Nat)) (c : Nat)
    (prev : String) (h : GoodEntries subs) : GoodEntries (removeSub subs c prev) := by
  obtain ⟨hkeys, hent⟩ := h
  unfold removeSub
  cases hget : getKey subs prev with
  | none => exact ⟨hkeys, hent⟩
  | some set =>
    dsimp only
    by_cases hemp : set.erase c = []
    · rw [if_pos hemp]
      exact ⟨keys_nodup_delKey subs prev hkeys,
        fun e he => hent e (mem_delKey subs prev e he)⟩
    · rw [if_neg hemp]
      refine ⟨keys_nodup_setKey subs prev _ hkeys, ?_⟩
      intro e he
      rcases mem_setKey_keysNodup subs prev _ e hkeys he with h1 | h1
      · have hp := hent (prev, set) (getKey_mem subs prev set hget)
        rw [h1]
        exact ⟨hemp, hp.2.1, hp.2.2.erase c⟩
      · exact hent e h1.1

theorem removeSub_coh (subs : List (String × List Nat))
    (current : List (Nat × String)) (c : Nat) (prev : String)
    (hkeys : (subs.map Prod.fst).Nodup)
    (hC : ∀ e ∈ subs, ∀ c' ∈ e.2, getKey current c' = some e.1) :
    ∀ e ∈ removeSub subs c prev, ∀ c' ∈ e.2, getKey current c' = some e.1 := by
  intro e he c' hc'
  rcases mem_removeSub subs c prev e hkeys he with h1 | ⟨set, hget, h2⟩
  · exact hC e h1 c' hc'
  · rw [h2] at hc' ⊢
    exact hC (prev, set) (getKey_mem subs prev set hget) c'
      (List.mem_of_mem_erase hc')

theorem removeSub_no_c (subs : List (String × List Nat))
    (current : List (Nat × String)) (c : Nat) (prev : String)
    (hG : GoodEntries subs)
    (hC : ∀ e ∈ subs, ∀ c' ∈ e.2, getKey current c' = some e.1)
    (hcur : getKey current c = some prev) :
    ∀ e ∈ removeSub subs c prev, c ∉ e.2 := by
  intro e he hc
  rcases mem_removeSub subs c prev e hG.1 he with h1 | ⟨set, hget, h2⟩
  · -- c still listed under e, so e.1 = prev; but then the first entry for
    -- prev had c erased, contradicting key uniqueness
    have hx := hC e h1 c hc
    rw [hcur] at hx
    injection hx with hx
    -- e ∈ subs with key prev; removeSub either deleted that key or erased c
    unfold removeSub at he
    cases hget : getKey subs prev with
    | none =>
      have hsome := mem_getKey_isSome subs e h1
      rw [← hx, hget] at hsome
      simp at hsome
    | some set =>
      rw [hget] at he
      dsimp only at he
      by_cases hemp : set.erase c = []
      · rw [if_pos hemp] at he
        exact (mem_delKey_ne subs prev e he).2 hx.symm
      · rw [if_neg hemp] at he
        rcases mem_setKey_keysNodup subs prev _ e hG.1 he with h2 | h2
        · rw [h2] at hc
          exact ((hG.2 (prev, set) (getKey_mem subs prev set hget)).2.2).not_mem_erase hc
        · exact h2.2 hx.symm
  · rw [h2] at hc
    exact ((hG.2 (prev, set) (getKey_mem subs prev set hget)).2.2).not_mem_erase hc

theorem subsAfterPrevRemoval_good (st : WsState) (c : Nat)
    (h : GoodEntries st.subs) : GoodEntries (subsAfterPrevRemoval st c) := by
  unfold subsAfterPrevRemoval
  cases getKey st.current c with
  | none => exact h
  | some prev =>
    dsimp only
    by_cases hprev : prev = ""
    · rw [if_pos hprev]
      exact h
    · rw [if_neg hprev]
      exact goodEntries_removeSub st.subs c prev h

theorem subsAfterPrevRemoval_coh (st : WsState) (c : Nat)
    (hG : GoodEntries st.subs)
    (hC : ∀ e ∈ st.subs, ∀ c' ∈ e.2, getKey st.current c' = some e.1) :
    ∀ e ∈ subsAfterPrevRemoval st c, ∀ c' ∈ e.2,
      getKey st.current c' = some e.1 := by
  unfold subsAfterPrevRemoval
  cases getKey st.current c with
  | none => exact hC
  | some prev =>
    dsimp only
    by_cases hprev : prev = ""
    · rw [if_pos hprev]
      exact hC
    · rw [if_neg hprev]
      exact removeSub_coh st.subs st.current c prev hG.1 hC

theorem subsAfterPrevRemoval_no_c (st : WsState) (c : Nat)
    (hG : GoodEntries st.subs)
    (hC : ∀ e ∈ st.subs, ∀ c' ∈ e.2, getKey st.current c' = some e.1) :
    ∀ e ∈ subsAfterPrevRemoval st c, c ∉ e.2 := by
  unfold subsAfterPrevRemoval
  cases hcur : getKey st.current c with
  | none =>
    intro e he hc
    have hx := hC e he c hc
    rw [hcur] at hx
    cases hx
  | some prev =>
    dsimp only
    by_cases hprev : prev = ""
    · rw [if_pos hprev]
      intro e he hc
      have hx := hC e he c hc
      rw [hcur] at hx
      injection hx with hx
      exact (hG.2 e he).2.1 (hx ▸ hprev)
    · rw [if_neg hprev]
      exact removeSub_no_c st.subs st.current c prev hG hC hcur

theorem mem_subsAfterAdd (subs : List (String × List Nat)) (c : Nat) (rid : String)
    (e : String × List Nat) (hkeys : (subs.map Prod.fst).Nodup) :
    e ∈ subsAfterAdd subs c rid →
      (e.1 = rid ∧ ∀ c' ∈ e.2, c' = c ∨
        ∃ set, getKey subs rid = some set ∧ c' ∈ set) ∨
      (e ∈ subs ∧ e.1 ≠ rid) := by
  intro he
  unfold subsAfterAdd at he
  cases hget : getKey subs rid with
  | none =>
    rw [hget] at he
    rcases mem_setKey_keysNodup subs rid _ e hkeys he with h1 | h1
    · rw [h1]
      refine Or.inl ⟨rfl, ?_⟩
      intro c' hc'
      exact Or.inl (List.mem_singleton.mp hc')
    · exact Or.inr h1
  | some set =>
    rw [hget] at he
    dsimp only at he
    rcases mem_setKey_keysNodup subs rid _ e hkeys he with h1 | h1
    · rw [h1]
      refine Or.inl ⟨rfl, ?_⟩
      intro c' hc'
      by_cases hc : c ∈ set
      · rw [if_pos hc] at hc'
        exact Or.inr ⟨set, rfl, hc'⟩
      · rw [if_neg hc] at hc'
        rcases List.mem_append.mp hc' with h2 | h2
        · exact Or.inr ⟨set, rfl, h2⟩
        · exact Or.inl (List.mem_singleton.mp h2)
    · exact Or.inr h1

theorem subsAfterAdd_self (subs : List (String × List Nat)) (c : Nat) (rid : String) :
    ∃ set, getKey (subsAfterAdd subs c rid) rid = some set ∧ c ∈ set := by
  unfold subsAfterAdd
  cases hget : getKey subs rid with
  | none => exact ⟨[c], getKey_setKey_self .., List.mem_singleton.mpr rfl⟩
  | some set =>
    dsimp only
    by_cases hc : c ∈ set
    · rw [if_pos hc]
      exact ⟨set, getKey_setKey_self .., hc⟩
    · rw [if_neg hc]
      exact ⟨set ++ [c], getKey_setKey_self .., by simp⟩

theorem goodEntries_subsAfterAdd (subs : List (String × List Nat)) (c : Nat)
    (rid : String) (hrid : rid ≠ "") (h : GoodEntries subs) :
    GoodEntries (subsAfterAdd subs c rid) := by
  obtain ⟨hkeys, hent⟩ := h
  unfold subsAfterAdd
  cases hget : getKey subs rid with
  | none =>
    refine ⟨keys_nodup_setKey subs rid _ hkeys, ?_⟩
    intro e he
    rcases mem_setKey_keysNodup subs rid _ e hkeys he with h1 | h1
    · rw [h1]
      exact ⟨by simp, hrid, List.nodup_singleton c⟩
    · exact hent e h1.1
  | some set =>
    dsimp only
    have hprops := hent (rid, set) (getKey_mem subs rid set hget)
    by_cases hc : c ∈ set
    · rw [if_pos hc]
      refine ⟨keys_nodup_setKey subs rid _ hkeys, ?_⟩
      intro e he
      rcases mem_setKey_keysNodup subs rid _ e hkeys he with h1 | h1
      · rw [h1]
        exact ⟨hprops.1, hrid, hprops.2.2⟩
      · exact hent e h1.1
    · rw [if_neg hc]
      refine ⟨keys_nodup_setKey subs rid _ hkeys, ?_⟩
      intro e he
      rcases mem_setKey_keysNodup subs rid _ e hkeys he with h1 | h1
      · rw [h1]
        refine ⟨by simp, hrid, ?_⟩
        rw [List.nodup_append]
        exact ⟨hprops.2.2, List.nodup_singleton c,
          fun a ha hb => hc ((List.mem_singleton.mp hb) ▸ ha)⟩
      · exact hent e h1.1

theorem wsInv_subscribe (st : WsState) (c : Nat) (rid : String) (h : WsInv st) :
    WsInv (wsSubscribe st c rid) := by
  obtain ⟨hG, hC⟩ := h
  unfold wsSubscribe
  by_cases hrid : rid = ""
  · rw [if_pos hrid]
    exact ⟨hG, hC⟩
  · rw [if_neg hrid]
    have hG1 := subsAfterPrevRemoval_good st c hG
    have hno := subsAfterPrevRemoval_no_c st c hG hC
    have hcoh := subsAfterPrevRemoval_coh st c hG hC
    refine ⟨goodEntries_subsAfterAdd _ c rid hrid hG1, ?_⟩
    intro e he c' hc'
    rcases mem_subsAfterAdd _ c rid e hG1.1 he with ⟨h1, h2⟩ | ⟨hmem, hne⟩
    · rcases h2 c' hc' with rfl | ⟨set, hget, hcset⟩
      · rw [h1]
        exact getKey_setKey_self ..
      · have hcc : c' ≠ c :=
          fun hh => hno (rid, set) (getKey_mem _ rid set hget) (hh ▸ hcset)
        rw [getKey_setKey_ne st.current c c' rid (fun hh => hcc hh.symm), h1]
        exact hcoh (rid, set) (getKey_mem _ rid set hget) c' hcset
    · have hcc : c' ≠ c := fun hh => hno e hmem (hh ▸ hc')
      rw [getKey_setKey_ne st.current c c' rid (fun hh => hcc hh.symm)]
      exact hcoh e hmem c' hc'

theorem wsInv_unsubscribe (st : WsState) (c : Nat) (h : WsInv st) :
    WsInv (wsUnsubscribe st c) := by
  obtain ⟨hG, hC⟩ := h
  unfold wsUnsubscribe
  cases hcur : getKey st.current c with
  | none => exact ⟨hG, hC⟩
  | some prev =>
    dsimp only
    by_cases hprev : prev = ""
    · rw [if_pos hprev]
      exact ⟨hG, hC⟩
    · rw [if_neg hprev]
      refine ⟨goodEntries_removeSub st.subs c prev ⟨hG.1, hG.2⟩, ?_⟩
      intro e he c' hc'
      have hcc : c' ≠ c :=
        fun hh => removeSub_no_c st.subs st.current c prev hG hC hcur e he (hh ▸ hc')
      rw [getKey_delKey_ne st.current c c' (fun hh => hcc hh.symm)]
      exact removeSub_coh st.subs st.current c prev hG.1 hC e he c' hc'

theorem wsClose_eq_unsubscribe (st : WsState) (c : Nat) :
    wsClose st c = wsUnsubscribe st c := rfl

theorem wsInv_locationUpdate (st : WsState) (c : Nat) (rid : String)
    (loc : LocationUpdate) (h : WsInv st) : WsInv (wsLocationUpdate st c rid loc) := by
  obtain ⟨hG, hC⟩ := h
  unfold wsLocationUpdate
  by_cases hrid : rid = ""
  · rw [if_pos hrid]
    exact ⟨hG, hC⟩
  · rw [if_neg hrid]
    exact ⟨hG, hC⟩

theorem wsInv_step (st : WsState) (op : WsOp) (h : WsInv st) :
    WsInv (applyWsOp st op) := by
  cases op with
  | subscribe c rid => exact wsInv_subscribe st c rid h
  | unsubscribe c => exact wsInv_unsubscribe st c h
  | disconnect c => exact wsInv_unsubscribe st c h
  | locationUpdate c rid loc => exact wsInv_locationUpdate st c rid loc h

theorem wsInv_init : WsInv initWsState :=
  ⟨⟨List.nodup_nil, fun e he => absurd he (List.not_mem_nil e)⟩,
   fun e he => absurd he (List.not_mem_nil e)⟩

theorem wsInv_runWsOps (st : WsState) (ops : List WsOp) (h : WsInv st) :
    WsInv (runWsOps st ops) := by
  induction ops generalizing st with
  | nil => exact h
  | cons op rest ih => exact ih (applyWsOp st op) (wsInv_step st op h)

/-- C6: after any finite sequence of live-channel events (subscribe,
unsubscribe, disconnect, location updates) from server start, the
subscription registry never holds a ride id key with an empty connection
set. -/
theorem registry_no_empty_sets (ops : List WsOp) (e : String × List Nat)
    (he : e ∈ (runWsOps initWsState ops).subs) : e.2 ≠ [] :=
  ((wsInv_runWsOps initWsState ops wsInv_init).1.2 e he).1

/-- Concrete instance of `registry_no_empty_sets` after a single
subscription. -/
theorem registry_no_empty_sets_check :
    (("rA", [1]) ∈ (runWsOps initWsState [WsOp.subscribe 1 "rA"]).subs) ∧
    (("rA", [1]) : String × List Nat).2 ≠ [] :=
  ⟨by decide,
   registry_no_empty_sets [WsOp.subscribe 1 "rA"] ("rA", [1]) (by decide)⟩

/-- C7: `subscribe(connection, rideId)` (with a truthy ride id, on a
well-formed registry) puts the connection into the new ride's set, leaves
it in no other ride's set — a connection is subscribed to at most one
ride at a time — and immediately sends the ride's stored last-known
location to that connection when one exists (nothing otherwise). -/
theorem subscribe_delivers_and_moves (st : WsState) (c : Nat) (rid : String)
    (hrid : rid ≠ "") (hG : GoodEntries st.subs)
    (hC : ∀ e ∈ st.subs, ∀ c' ∈ e.2, getKey st.current c' = some e.1) :
    (∃ set, getKey (wsSubscribe st c rid).subs rid = some set ∧ c ∈ set) ∧
    (∀ e ∈ (wsSubscribe st c rid).subs, e.1 ≠ rid → c ∉ e.2) ∧
    (∀ loc, getKey st.locations rid = some loc →
       (wsSubscribe st c rid).sent = st.sent ++ [(c, loc)]) ∧
    (getKey st.locations rid = none → (wsSubscribe st c rid).sent = st.sent) := by
  have hG1 := subsAfterPrevRemoval_good st c hG
  have hno := subsAfterPrevRemoval_no_c st c hG hC
  unfold wsSubscribe
  rw [if_neg hrid]
  dsimp only
  refine ⟨subsAfterAdd_self _ c rid, ?_, ?_, ?_⟩
  · intro e he hne hc
    rcases mem_subsAfterAdd _ c rid e hG1.1 he with ⟨h1, _⟩ | ⟨hmem, _⟩
    · exact hne h1
    · exact hno e hmem hc
  · intro loc hloc
    rw [hloc]
  · intro hloc
    rw [hloc]

/-- Concrete instance of `subscribe_delivers_and_moves`: connection 1
re-subscribes from ride "rA" to ride "rB", which has a stored location. -/
theorem subscribe_delivers_and_moves_check :
    (("rB" : String) ≠ "" ∧ GoodEntries fixtureWs.subs ∧
     (∀ e ∈ fixtureWs.subs, ∀ c' ∈ e.2, getKey fixtureWs.current c' = some e.1)) ∧
    (∃ set, getKey (wsSubscribe fixtureWs 1 "rB").subs "rB" = some set ∧ 1 ∈ set) ∧
    (∀ e ∈ (wsSubscribe fixtureWs 1 "rB").subs, e.1 ≠ "rB" → 1 ∉ e.2) ∧
    (wsSubscribe fixtureWs 1 "rB").sent = fixtureWs.sent ++ [(1, fixtureLoc)] := by
  have h := subscribe_delivers_and_moves fixtureWs 1 "rB" (by decide)
    (by unfold GoodEntries; decide) (by decide)
  exact ⟨⟨by decide, by unfold GoodEntries; decide, by decide⟩,
    h.1, h.2.1, h.2.2.1 fixtureLoc rfl⟩

end Dropmate
